import Mathlib

set_option maxRecDepth 100000

/-!
# Verification of the Rho/Xi bundle engine against its specification

This file shallowly embeds the core of the repository (the `Puffer` and
`Tunnel` bundle engines, the `Railway` channel multiplexer, the `Node`
session handshake and the crypto facade) as executable Lean definitions
over `List Nat` byte strings, and proves or refutes the specification
claims about them.

Conventions:
* C++ byte buffers (`Xi::String`) are `List Nat`, each element a byte
  (values stay below 256 whenever the source guarantees `u8`).
* `u64` / `usz` values are `Nat`s; wrap-around of 64-bit arithmetic is
  made explicit with `% u64Mod` or `usub` exactly where the source can
  overflow.  Fields of C++ type `u64` are unbounded `Nat`s in the state
  records; theorems add `< u64Mod` bounds where the source relies on them.
* Loops that are not structurally terminating in the C++ source (some of
  them genuinely diverge on malformed input) are given explicit fuel; the
  fuel is chosen large enough for every terminating execution that a
  theorem below touches.
* Monotonic-clock reads (`Time::millis()`) only feed timers that are
  disabled in every state considered here; the timer fields are omitted
  and time-dependent tests are surfaced as explicit boolean arguments.
-/

namespace Rho

/-- 2^64, the modulus of the C++ `u64` / 64-bit `usz` arithmetic. -/
def u64Mod : Nat := 2 ^ 64

/-- Wrapping 64-bit subtraction `a - b` for `a b < 2^64`, as C++ unsigned
arithmetic computes it. -/
def usub (a b : Nat) : Nat := (a + u64Mod - b) % u64Mod

theorem usub_of_le {a b : Nat} (h : b ≤ a) (ha : a < u64Mod) : usub a b = a - b := by
  unfold usub
  have h1 : a + u64Mod - b = (a - b) + u64Mod := by omega
  rw [h1, Nat.add_mod_right, Nat.mod_eq_of_lt (by omega)]

/-- Bitwise or of a value below `2^s` with a value shifted up by `s` is
plain addition (the bit ranges are disjoint). -/
theorem lor_shift_eq_add (s : Nat) : ∀ r m : Nat, r < 2 ^ s → r ||| m <<< s = r + m * 2 ^ s := by
  induction s with
  | zero =>
    intro r m hr
    interval_cases r
    simp [Nat.shiftLeft_eq]
  | succ s ih =>
    intro r m hr
    have hq : r / 2 < 2 ^ s := by
      rw [pow_succ] at hr; omega
    have hih := ih (r / 2) m hq
    have hshift : m <<< (s + 1) = 2 * (m <<< s) := by
      simp [Nat.shiftLeft_eq, pow_succ]; ring
    have hbitf : ∀ x : Nat, Nat.bit false x = 2 * x := fun x => rfl
    have hbitt : ∀ x : Nat, Nat.bit true x = 2 * x + 1 := fun x => rfl
    rcases Nat.mod_two_eq_zero_or_one r with hb | hb
    · have hr2 : r = 2 * (r / 2) := by omega
      calc r ||| m <<< (s + 1) = Nat.bit false (r / 2) ||| Nat.bit false (m <<< s) := by
            rw [hbitf, hbitf, ← hr2, ← hshift]
      _ = Nat.bit false (r / 2 ||| m <<< s) := by rw [Nat.lor_bit]; rfl
      _ = 2 * (r / 2 + m * 2 ^ s) := by rw [hbitf, hih]
      _ = r + m * 2 ^ (s + 1) := by
            have hp : m * 2 ^ (s + 1) = 2 * (m * 2 ^ s) := by rw [pow_succ]; ring
            omega
    · have hr2 : r = 2 * (r / 2) + 1 := by omega
      calc r ||| m <<< (s + 1) = Nat.bit true (r / 2) ||| Nat.bit false (m <<< s) := by
            rw [hbitt, hbitf, ← hr2, ← hshift]
      _ = Nat.bit true (r / 2 ||| m <<< s) := by rw [Nat.lor_bit]; rfl
      _ = 2 * (r / 2 + m * 2 ^ s) + 1 := by rw [hbitt, hih]
      _ = r + m * 2 ^ (s + 1) := by
            have hp : m * 2 ^ (s + 1) = 2 * (m * 2 ^ s) := by rw [pow_succ]; ring
            omega

/-! ## VarLong codec

From `Xi::String::pushVarLong` / `peekVarLong` (src/include/Xi/String.hpp),
the little-endian base-128 variable-length integer used throughout the wire
format.  `pushVarLong`'s do/while loop always terminates (the argument is a
`u64`); it is written here with fuel 10, which covers every value below
`2^70 > 2^64`. -/

/-- One 7-bit group step of `pushVarLong`. -/
def varLongBytesAux : Nat → Nat → List Nat
  | 0, _ => []
  | fuel + 1, n => if n < 128 then [n] else (n % 128 + 128) :: varLongBytesAux fuel (n / 128)

/-- `Xi::String::pushVarLong v`: the bytes appended for the `u64` value `v`. -/
def varLongBytes (n : Nat) : List Nat := varLongBytesAux 10 n

/-- Result of `Xi::String::peekVarLong`: decoded value, bytes consumed, error flag. -/
structure VarLongResult where
  value : Nat
  bytes : Nat
  error : Bool
deriving Repr, DecidableEq

/-- The scan loop of `peekVarLong`.  `r` is the `unsigned long long`
accumulator (kept reduced mod 2^64 as the C++ register is), `s` the shift,
`cnt` the bytes consumed so far.  For a `u8` byte `b`, the source's
`b & 0x7f` is `b % 128` and `b & 0x80` is zero exactly when `b < 128`. -/
def peekVarLongAux : List Nat → Nat → Nat → Nat → VarLongResult
  | [], _, _, _ => ⟨0, 0, true⟩
  | b :: rest, r, s, cnt =>
    let r' := (r ||| (b % 128) <<< s) % u64Mod
    if b < 128 then ⟨r', cnt + 1, false⟩
    else if s + 7 ≥ 70 then ⟨0, 0, true⟩
    else peekVarLongAux rest r' (s + 7) (cnt + 1)

/-- `Xi::String::peekVarLong(offset)` over the whole buffer `l`. -/
def peekVarLong (l : List Nat) (offset : Nat) : VarLongResult :=
  if offset ≥ l.length then ⟨0, 0, true⟩
  else peekVarLongAux (l.drop offset) 0 0 0

/-- `Rho::Encoding::readVarLong`: returns the value and the advanced cursor;
on a decode error it returns `0` and leaves the cursor unchanged
(src/include/Rho/Puffer.hpp). -/
def readVarLong (l : List Nat) (pos : Nat) : Nat × Nat :=
  let res := peekVarLong l pos
  if res.error then (0, pos) else (res.value, pos + res.bytes)

theorem varLongBytesAux_ne_nil (fuel n : Nat) (h : 0 < fuel) : varLongBytesAux fuel n ≠ [] := by
  cases fuel with
  | zero => omega
  | succ fuel =>
    unfold varLongBytesAux
    by_cases hn : n < 128 <;> simp [hn]

theorem varLongBytes_ne_nil (n : Nat) : varLongBytes n ≠ [] :=
  varLongBytesAux_ne_nil 10 n (by omega)

theorem varLongBytes_length_pos (n : Nat) : 0 < (varLongBytes n).length :=
  List.length_pos.mpr (varLongBytes_ne_nil n)

/-- Each byte emitted by `pushVarLong` is a byte (< 256). -/
theorem varLongBytesAux_lt (fuel : Nat) : ∀ n, n < 128 ^ fuel → ∀ b ∈ varLongBytesAux fuel n, b < 256 := by
  induction fuel with
  | zero => intro n hn b hb; simp [varLongBytesAux] at hb
  | succ fuel ih =>
    intro n hn b hb
    unfold varLongBytesAux at hb
    by_cases h : n < 128
    · simp [h] at hb; omega
    · simp [h] at hb
      rcases hb with hb | hb
      · have := Nat.mod_lt n (y := 128) (by omega); omega
      · exact ih (n / 128) (by rw [pow_succ] at hn; exact Nat.div_lt_of_lt_mul (by omega)) b hb

/-- Round trip of the scan loop over an encoded value followed by anything. -/
theorem peekVarLongAux_spec (fuel : Nat) :
    ∀ n rest r s cnt, 0 < fuel → n < 128 ^ fuel → r < 2 ^ s → r + n * 2 ^ s < u64Mod →
      peekVarLongAux (varLongBytesAux fuel n ++ rest) r s cnt =
        ⟨r + n * 2 ^ s, cnt + (varLongBytesAux fuel n).length, false⟩ := by
  induction fuel with
  | zero =>
    intro n rest r s cnt hpos
    omega
  | succ fuel ih =>
    intro n rest r s cnt _ hn hr hlt
    by_cases h : n < 128
    · have hv : varLongBytesAux (fuel + 1) n = [n] := by
        unfold varLongBytesAux; rw [if_pos h]
      rw [hv]
      have hmod : n % 128 = n := Nat.mod_eq_of_lt h
      simp only [List.cons_append, List.nil_append, peekVarLongAux, hmod, if_pos h,
        lor_shift_eq_add s r n hr, Nat.mod_eq_of_lt hlt]
      rfl
    · have hdm : n = 128 * (n / 128) + n % 128 := (Nat.div_add_mod n 128).symm
      have hsum : r + n % 128 * 2 ^ s + n / 128 * 2 ^ (s + 7) = r + n * 2 ^ s := by
        rw [pow_add]
        nlinarith [hdm]
      have hv : varLongBytesAux (fuel + 1) n = (n % 128 + 128) :: varLongBytesAux fuel (n / 128) := by
        simp only [varLongBytesAux]; rw [if_neg h]
      rw [hv]
      have hb : ¬ (n % 128 + 128 < 128) := by omega
      have hs7 : ¬ (s + 7 ≥ 70) := by
        intro hcon
        have hsge : s ≥ 63 := by omega
        have h2 : (2 ^ 63 : Nat) ≤ 2 ^ s := Nat.pow_le_pow_right (by omega) hsge
        have h3 : 128 * 2 ^ s ≤ n * 2 ^ s := Nat.mul_le_mul_right _ (by omega)
        have h5 : (2 ^ 70 : Nat) ≤ n * 2 ^ s :=
          calc (2 ^ 70 : Nat) = 128 * 2 ^ 63 := by norm_num
          _ ≤ 128 * 2 ^ s := Nat.mul_le_mul_left _ h2
          _ ≤ n * 2 ^ s := h3
        have h6 : (u64Mod : Nat) ≤ 2 ^ 70 := by unfold u64Mod; norm_num
        omega
      have hmod128 : (n % 128 + 128) % 128 = n % 128 := by omega
      have hr' : r ||| (n % 128) <<< s = r + n % 128 * 2 ^ s := lor_shift_eq_add s r (n % 128) hr
      have hle1 : n % 128 * 2 ^ s ≤ n * 2 ^ s := Nat.mul_le_mul_right _ (Nat.mod_le _ _)
      have hrlt : r + n % 128 * 2 ^ s < u64Mod := by omega
      have hfuel : n / 128 < 128 ^ fuel := by
        rw [pow_succ] at hn
        exact Nat.div_lt_of_lt_mul (by omega)
      have hfpos : 0 < fuel := by
        by_contra hf
        have : fuel = 0 := by omega
        subst this
        simp [pow_zero] at hfuel
        omega
      have hracc : r + n % 128 * 2 ^ s < 2 ^ (s + 7) := by
        have h2 : n % 128 < 128 := Nat.mod_lt _ (by omega)
        have h3 : n % 128 * 2 ^ s ≤ 127 * 2 ^ s := Nat.mul_le_mul_right _ (by omega)
        have h4 : (2 ^ (s + 7) : Nat) = 128 * 2 ^ s := by rw [pow_add]; ring
        omega
      have hstep := ih (n / 128) rest (r + n % 128 * 2 ^ s) (s + 7) (cnt + 1) hfpos hfuel hracc (by omega)
      simp only [List.cons_append, peekVarLongAux, hmod128, hr', Nat.mod_eq_of_lt hrlt,
        if_neg hb, ge_iff_le, if_neg hs7, List.append_eq]
      rw [hstep, hsum]
      simp only [List.length_cons]
      congr 1
      omega

/-- `peekVarLong` at the start of an encoded `u64` value decodes it. -/
theorem peekVarLong_append (pre : List Nat) (n : Nat) (rest : List Nat) (hn : n < u64Mod) :
    peekVarLong (pre ++ (varLongBytes n ++ rest)) pre.length =
      ⟨n, (varLongBytes n).length, false⟩ := by
  unfold peekVarLong
  have hne : varLongBytes n ≠ [] := varLongBytes_ne_nil n
  have hlen : pre.length < (pre ++ (varLongBytes n ++ rest)).length := by
    simp [List.length_append]
    cases hv : varLongBytes n with
    | nil => exact absurd hv hne
    | cons a l => simp
  simp only [Nat.not_le.mpr hlen, ge_iff_le, if_neg (Nat.not_le.mpr hlen)]
  rw [List.drop_left]
  have h128 : n < 128 ^ 10 := by
    unfold u64Mod at hn
    calc n < 2 ^ 64 := hn
    _ ≤ 128 ^ 10 := by norm_num
  have := peekVarLongAux_spec 10 n rest 0 0 0 (by omega) h128 (by norm_num) (by simpa using hn)
  unfold varLongBytes
  rw [this]
  simp

/-- `readVarLong` at the start of an encoded value. -/
theorem readVarLong_append (pre : List Nat) (n : Nat) (rest : List Nat) (hn : n < u64Mod) :
    readVarLong (pre ++ (varLongBytes n ++ rest)) pre.length =
      (n, pre.length + (varLongBytes n).length) := by
  unfold readVarLong
  rw [peekVarLong_append pre n rest hn]
  simp

/-! ## Constant-time comparison

From `Xi::String::constantTimeEquals(b, length = 0)`
(src/include/Xi/String.hpp lines 309-343).  The source opens with
`usz aLen = length;` — `length` here is the `int` parameter (default 0),
which shadows the member `Array::length` of the receiver, so `aLen` is the
requested compare length, not the receiver's byte count.  The embedding
reproduces that faithfully.  When `i < aLen` exceeds the receiver's real
length the source reads out of bounds; the embedding returns byte 0 there,
and every theorem below instantiates it in bounds only. -/
def constantTimeEquals (a b : List Nat) (len : Nat) : Bool :=
  let aLen := len
  let bLen := b.length
  let compareLen := if len > 0 then len else if aLen > bLen then aLen else bLen
  let r0 : Nat :=
    if len > 0 then (if aLen < len ∨ bLen < len then 1 else 0)
    else (if aLen ≠ bLen then 1 else 0)
  let r := (List.range compareLen).foldl
    (fun acc i =>
      let aByte := if i < aLen then a.getD i 0 else 0
      let bByte := if i < bLen then b.getD i 0 else 0
      acc ||| (aByte ^^^ bByte)) r0
  r == 0

/-! ## The Puffer bundle engine (src/include/Rho/Puffer.hpp)

State and operations of the `Xi::Puffer` class.  Listener callbacks are
modelled as an event trace (`Ev`); the clock-driven fields (`lastSent`,
`lastSentHeartbeat`, `lastSeen`) and timeout configuration only feed the
heartbeat/timeout timers, which are disabled (`heartbeatEnabled = false`,
the constructor default) in every state a theorem below touches, so they
are omitted and the elapsed-timer test of `flush` is an explicit boolean
argument. -/

/-- `Xi::Packet` (Puffer.hpp lines 17-27), with the C++ field defaults. -/
structure Packet where
  payload : List Nat := []
  channel : Nat := 1
  bypassHOL : Bool := false
  important : Bool := true
  id : Nat := 0
  fragmentStartID : Nat := 0
  fragmentStatus : Nat := 0
deriving Repr, DecidableEq

/-- `Xi::FromTo` (Puffer.hpp lines 29-33). -/
structure FromTo where
  from_ : Nat
  to_ : Nat
deriving Repr, DecidableEq

/-- `Xi::InflightBundle` (Puffer.hpp lines 35-40). -/
structure InflightBundle where
  id : Nat
  data : List Nat
  important : Bool
deriving Repr, DecidableEq

/-- Observable callback invocations of a `Puffer` (packet, probe, announce,
disconnect and switch-request listeners). -/
inductive Ev where
  | packet : Packet → Ev
  | probe : List (Nat × List Nat) → Ev
  | announce : List (Nat × List Nat) → Ev
  | disconnected : List (Nat × List Nat) → Ev
  | switchRequest : Ev
deriving Repr, DecidableEq

/-- State of `Xi::Puffer` (Puffer.hpp lines 111-164), with the C++
member initializers as defaults. -/
structure Puffer where
  key : List Nat := []
  isSecure : Bool := false
  isWindowed : Bool := false
  heartbeatEnabled : Bool := false
  glarePosition : Bool := false
  glareInited : Bool := false
  lastSentNonce : Nat := 0
  lastReceivedNonce : Nat := 0
  receiveWindowMask : Nat := 0
  resendPosition : Nat := 0
  inflightBundles : List InflightBundle := []
  nonImportantInflightBundles : List InflightBundle := []
  droppedBundles : List Nat := []
  reassemblyBuffer : List (Nat × List Nat) := []
  outbox : List Packet := []
  intendedEpheHash : List Nat := []
  theirEphemeralPublic : List Nat := []
deriving Repr, DecidableEq

/-- `Xi::Map::put`: replace the value under an existing key, else append. -/
def assocPut (m : List (Nat × List Nat)) (k : Nat) (v : List Nat) : List (Nat × List Nat) :=
  if m.any (fun kv => kv.1 = k) then m.map (fun kv => if kv.1 = k then (k, v) else kv)
  else m ++ [(k, v)]

/-- `Xi::Map::get` as an optional value. -/
def assocGet (m : List (Nat × List Nat)) (k : Nat) : Option (List Nat) :=
  (m.find? (fun kv => kv.1 = k)).map (fun kv => kv.2)

/-- `Xi::Map::remove`. -/
def assocRemove (m : List (Nat × List Nat)) (k : Nat) : List (Nat × List Nat) :=
  m.filter (fun kv => kv.1 ≠ k)

/-- `Rho::Encoding::readMap` (Puffer.hpp lines 81-105): `count` entries of
`VarLong(key) VarLong(len) value`, stopping early on a length overrun.
The count recursion mirrors the C++ `for (i < count)` loop. -/
def readMapLoop (l : List Nat) : Nat → Nat → List (Nat × List Nat) → List (Nat × List Nat) × Nat
  | pos, 0, acc => (acc, pos)
  | pos, cnt + 1, acc =>
    let (k, pos1) := readVarLong l pos
    let (vLen, pos2) := readVarLong l pos1
    if pos2 + vLen ≤ l.length then
      readMapLoop l (pos2 + vLen) cnt (assocPut acc k ((l.drop pos2).take vLen))
    else (acc, pos2)

/-- `Rho::Encoding::readMap`. -/
def readMap (l : List Nat) (pos : Nat) : List (Nat × List Nat) :=
  if pos ≥ l.length then []
  else
    let (count, pos1) := readVarLong l pos
    (readMapLoop l pos1 count []).1

/-! ### Replay window (Puffer.hpp lines 336-370) -/

/-- `Puffer::hasReceived` (Puffer.hpp lines 336-346). -/
def hasReceived (s : Puffer) (id : Nat) : Bool :=
  if id = 0 then true
  else if id > s.lastReceivedNonce then false
  else
    let diff := s.lastReceivedNonce - id
    if diff ≥ 64 then true
    else (s.receiveWindowMask >>> diff) % 2 = 1

/-- `Puffer::pretendReceived` (Puffer.hpp lines 348-370).  The
`receiveWindowMask <<= diff` of the source acts on a `u64`, hence the
`% u64Mod`. -/
def pretendReceived (s : Puffer) (id : Nat) : Puffer :=
  if id = 0 then s
  else if id > s.lastReceivedNonce then
    let diff := id - s.lastReceivedNonce
    let mask := if diff ≥ 64 then 1 else (s.receiveWindowMask <<< diff) % u64Mod ||| 1
    { s with receiveWindowMask := mask, lastReceivedNonce := id }
  else
    let diff := s.lastReceivedNonce - id
    if diff < 64 then { s with receiveWindowMask := s.receiveWindowMask ||| 1 <<< diff }
    else s

/-- `Puffer::removeInflight` (Puffer.hpp lines 372-384): drop the first
inflight bundle with the given id and pull the resend cursor back when it
sat beyond the removed slot. -/
def removeInflight (s : Puffer) (id : Nat) : Puffer :=
  match s.inflightBundles.findIdx? (fun ib => ib.id = id) with
  | none => s
  | some i =>
    { s with
      inflightBundles := s.inflightBundles.eraseIdx i,
      resendPosition := if s.resendPosition > i then s.resendPosition - 1 else s.resendPosition }

/-- `Puffer::dropInflight` (Puffer.hpp lines 386-390). -/
def dropInflight (s : Puffer) (id : Nat) : Puffer :=
  let s := removeInflight s id
  { s with droppedBundles := s.droppedBundles ++ [id] }

/-- `Puffer::resendFrom` (Puffer.hpp lines 392-403). -/
def resendFrom (s : Puffer) (x : Nat) : Puffer :=
  match s.inflightBundles.findIdx? (fun ib => ib.id ≥ x) with
  | none => { s with resendPosition := 0 }
  | some i => { s with resendPosition := i }

/-- Loop state of `Puffer::showReceived` (Puffer.hpp lines 405-450). -/
structure SRState where
  res : List FromTo
  cur : FromTo
  inRange : Bool
  done : Bool
deriving Repr, DecidableEq

/-- One iteration (`k`) of the `showReceived` scan; `done` records that the
C++ `break` at `id == 0` fired. -/
def showReceivedStep (lrn mask : Nat) (st : SRState) (k : Nat) : SRState :=
  if st.done then st
  else
    let id := lrn - k
    if id = 0 then { st with done := true }
    else if (mask >>> k) % 2 = 1 then
      if st.inRange then { st with cur := { st.cur with from_ := id } }
      else { st with inRange := true, cur := ⟨id, id⟩ }
    else if st.inRange then { st with res := st.res ++ [st.cur], inRange := false }
    else st

/-- `Puffer::showReceived`: the contiguous received ranges scanned from the
window head.  The final push runs whether or not the loop broke early,
exactly as in the source. -/
def showReceived (s : Puffer) : List FromTo :=
  if s.lastReceivedNonce = 0 then []
  else
    let st0 : SRState := ⟨[], ⟨s.lastReceivedNonce, s.lastReceivedNonce⟩, true, false⟩
    let st := (List.range' 1 63).foldl (showReceivedStep s.lastReceivedNonce s.receiveWindowMask) st0
    if st.inRange then st.res ++ [st.cur] else st.res

/-- `Puffer::showUnavailable` (Puffer.hpp lines 452-467): one singleton
range per dropped id, clearing the dropped list. -/
def showUnavailable (s : Puffer) : Puffer × List FromTo :=
  ({ s with droppedBundles := [] }, s.droppedBundles.map (fun id => ⟨id, id⟩))

/-- `Puffer::serializePacket` (Puffer.hpp lines 845-860).  Unlike the
`Tunnel` revision, the Puffer one always writes the message id. -/
def serializePacket (p : Packet) : List Nat :=
  let header := p.fragmentStatus &&& 0x03
  let header := if p.channel ≠ 1 then header ||| 4 else header
  let header := if p.bypassHOL then header ||| 8 else header
  [header] ++ varLongBytes p.id
    ++ (if p.channel ≠ 1 then varLongBytes p.channel else [])
    ++ (if p.fragmentStatus ≠ 0 then varLongBytes p.fragmentStartID else [])
    ++ p.payload

/-! ## Crypto facade (src/include/Xi/Crypto.hpp)

`aeadSeal` / `aeadOpen` / `kdf` / `hash` are translated from Crypto.hpp.
Their primitives `crypto_chacha20_ietf`, `crypto_poly1305` and
`crypto_blake2b` come from `packages/monocypher`, which is not under
`src/`; those three are modelled from the spec below. -/

/-- 2^32, the modulus of 32-bit words. -/
def u32Mod : Nat := 2 ^ 32

/-- Little-endian byte sequence as a natural number. -/
def leNat (l : List Nat) : Nat := l.foldr (fun b acc => b % 256 + 256 * acc) 0

/-- The `len` little-endian bytes of `n`. -/
def leBytes (len n : Nat) : List Nat := (List.range len).map (fun i => (n >>> (8 * i)) % 256)

/-- `Xi::zeros` (Crypto.hpp lines 34-42). -/
def zeros (n : Nat) : List Nat := List.replicate n 0

/-- Split a byte list into chunks of `k` bytes (the last may be shorter);
fuelled by the list length, enough for every `k ≥ 1`. -/
def chunksOfAux (k : Nat) : Nat → List Nat → List (List Nat)
  | 0, _ => []
  | _, [] => []
  | fuel + 1, l => l.take k :: chunksOfAux k fuel (l.drop k)

def chunksOf (k : Nat) (l : List Nat) : List (List Nat) := chunksOfAux k l.length l

/-- 32-bit left rotation. -/
def rotl32 (x n : Nat) : Nat := (x <<< n) % u32Mod ||| x >>> (32 - n)

/-- Modelled from the spec: the ChaCha20 quarter round, part of the IETF
ChaCha20 block function (`crypto_chacha20_ietf` of packages/monocypher,
absent from src/), acting on state indices `a b c d`. -/
def chachaQR (st : List Nat) (a b c d : Nat) : List Nat :=
  let va := st.getD a 0
  let vb := st.getD b 0
  let vc := st.getD c 0
  let vd := st.getD d 0
  let va := (va + vb) % u32Mod
  let vd := rotl32 (vd ^^^ va) 16
  let vc := (vc + vd) % u32Mod
  let vb := rotl32 (vb ^^^ vc) 12
  let va := (va + vb) % u32Mod
  let vd := rotl32 (vd ^^^ va) 8
  let vc := (vc + vd) % u32Mod
  let vb := rotl32 (vb ^^^ vc) 7
  (((st.set a va).set b vb).set c vc).set d vd

/-- Modelled from the spec: one ChaCha20 double round. -/
def chachaDoubleRound (st : List Nat) : List Nat :=
  let st := chachaQR st 0 4 8 12
  let st := chachaQR st 1 5 9 13
  let st := chachaQR st 2 6 10 14
  let st := chachaQR st 3 7 11 15
  let st := chachaQR st 0 5 10 15
  let st := chachaQR st 1 6 11 12
  let st := chachaQR st 2 7 8 13
  let st := chachaQR st 3 4 9 14
  st

def chachaRounds : Nat → List Nat → List Nat
  | 0, st => st
  | n + 1, st => chachaRounds n (chachaDoubleRound st)

/-- Modelled from the spec: the IETF ChaCha20 block function
(`crypto_chacha20_ietf` of packages/monocypher, absent from src/):
constants, 32-byte key, 32-bit counter, 12-byte nonce; ten double rounds;
feed-forward addition; little-endian serialization. -/
def chachaBlock (key nonce : List Nat) (counter : Nat) : List Nat :=
  let st0 := [0x61707865, 0x3320646e, 0x79622d32, 0x6b206574]
    ++ (chunksOf 4 key).map leNat
    ++ [counter % u32Mod]
    ++ (chunksOf 4 nonce).map leNat
  let st := chachaRounds 10 st0
  ((List.zipWith (fun a b => (a + b) % u32Mod) st st0).map (leBytes 4)).flatten

/-- Modelled from the spec: the ChaCha20 keystream of `len` bytes starting
at block `counter`. -/
def chachaKeystream (key nonce : List Nat) (counter len : Nat) : List Nat :=
  (((List.range ((len + 63) / 64)).map
    (fun i => chachaBlock key nonce ((counter + i) % u32Mod))).flatten).take len

/-- `Xi::createIetfNonce` (Crypto.hpp lines 48-55): 12 bytes, the low 8 the
little-endian `u64` nonce. -/
def createIetfNonce (nonce : Nat) : List Nat := zeros 4 ++ leBytes 8 nonce

/-- `Xi::streamXor` (Crypto.hpp lines 57-66). -/
def streamXor (key : List Nat) (nonce : Nat) (text : List Nat) (counter : Nat) : List Nat :=
  if key.length ≠ 32 then []
  else List.zipWith (fun a b => a ^^^ b) text
    (chachaKeystream key (createIetfNonce nonce) counter text.length)

/-- `Xi::createPoly1305Key` (Crypto.hpp lines 68-70). -/
def createPoly1305Key (key : List Nat) (nonce : Nat) : List Nat :=
  streamXor key nonce (zeros 32) 0

/-- Modelled from the spec: the Poly1305 one-time authenticator
(`crypto_poly1305` of packages/monocypher, absent from src/): clamp `r`,
absorb 16-byte blocks (each with a high `0x01` byte appended) modulo
`2^130 - 5`, then add `s` modulo `2^128`. -/
def poly1305 (msg otk : List Nat) : List Nat :=
  let r := leNat (otk.take 16) &&& 0x0ffffffc0ffffffc0ffffffc0fffffff
  let s := leNat ((otk.drop 16).take 16)
  let h := (chunksOf 16 msg).foldl
    (fun h c => (h + (leNat c + 2 ^ (8 * c.length))) * r % (2 ^ 130 - 5)) 0
  leBytes 16 ((h + s) % 2 ^ 128)

/-- The Poly1305 input of `Xi::aeadSeal`/`aeadOpen` (Crypto.hpp lines
229-245 and 268-283): AD and ciphertext zero-padded to 16-byte blocks,
then the two lengths as little-endian `u64`s. -/
def aeadAuthData (ad ct : List Nat) : List Nat :=
  ad ++ zeros ((16 - ad.length % 16) % 16)
    ++ ct ++ zeros ((16 - ct.length % 16) % 16)
    ++ leBytes 8 ad.length ++ leBytes 8 ct.length

/-- `Xi::aeadSeal` (Crypto.hpp lines 220-255): ciphertext and (truncated)
tag, or `none` when the key is not 32 bytes (the `return false` path). -/
def aeadSealF (key : List Nat) (nonce : Nat) (text ad : List Nat) (tagLength : Nat) :
    Option (List Nat × List Nat) :=
  if key.length ≠ 32 then none
  else
    let ct := streamXor key nonce text 1
    let otk := createPoly1305Key key nonce
    let tag := poly1305 (aeadAuthData ad ct) otk
    some (ct, tag.take tagLength)

/-- `Xi::aeadOpen` (Crypto.hpp lines 261-296): verify the truncated tag
with `constantTimeEquals`, then decrypt. -/
def aeadOpenF (key : List Nat) (nonce : Nat) (ct tag ad : List Nat) (tagLength : Nat) :
    Option (List Nat) :=
  if key.length ≠ 32 then none
  else
    let otk := createPoly1305Key key nonce
    let calcTag := poly1305 (aeadAuthData ad ct) otk
    if constantTimeEquals tag calcTag tagLength then some (streamXor key nonce ct 1)
    else none

/-! ### Puffer inbound path (Puffer.hpp lines 472-594 and 862-974) -/

/-- The `for (u64 id = from; id <= to; ++id)` loops of the heartbeat
handler (Puffer.hpp lines 876-886), folding a per-id action over each
`(from, to)` pair read from the payload. -/
def hbRangesLoop (payload : List Nat) (f : Puffer → Nat → Puffer) :
    Nat → Nat → Puffer → Puffer × Nat
  | pos, 0, s => (s, pos)
  | pos, cnt + 1, s =>
    let (lo, pos1) := readVarLong payload pos
    let (hi, pos2) := readVarLong payload pos1
    let s := (List.range' lo (hi + 1 - lo)).foldl f s
    hbRangesLoop payload f pos2 cnt s

/-- `Puffer::dispatchPacket` (Puffer.hpp lines 862-925): channel-0 control
processing followed by the unconditional packet-listener call. -/
def dispatchPacket (s : Puffer) (p : Packet) : Puffer × List Ev :=
  let (s, evs) :=
    if p.channel = 0 then
      let (ty, pos) := readVarLong p.payload 0
      if ty = 0 then
        let (cnt1, pos1) := readVarLong p.payload pos
        let (s, pos2) := hbRangesLoop p.payload removeInflight pos1 cnt1 s
        let (cnt2, pos3) := readVarLong p.payload pos2
        let (s, _) := hbRangesLoop p.payload pretendReceived pos3 cnt2 s
        (resendFrom s 0, [])
      else if ty = 10 then (s, [Ev.probe (readMap p.payload pos)])
      else if ty = 11 then (s, [Ev.announce (readMap p.payload pos)])
      else if ty = 20 then
        if p.payload.length ≥ pos + 8 + 8 + 32 then
          let pos := pos + 8
          ({ s with
              intendedEpheHash := (p.payload.drop pos).take 8,
              theirEphemeralPublic := (p.payload.drop (pos + 8)).take 32 },
            [Ev.switchRequest])
        else (s, [])
      else if ty = 100 then (s, [Ev.disconnected (readMap p.payload pos)])
      else (s, [])
    else (s, [])
  (s, evs ++ [Ev.packet p])

/-- `Puffer::parsePacket` (Puffer.hpp lines 927-974): decode one serialized
packet, route fragments to the reassembly buffer, dispatch the rest. -/
def parsePacket (s : Puffer) (raw : List Nat) : Puffer × List Ev :=
  if raw.length = 0 then (s, [])
  else
    let header := raw.headD 0
    let fragStatus := header &&& 0x03
    let hasChannel := (header >>> 2) &&& 1 == 1
    let bypass := (header >>> 3) &&& 1 == 1
    let (id, pos1) := readVarLong raw 1
    let (channel, pos2) := if hasChannel then readVarLong raw pos1 else (1, pos1)
    let (fragStart, pos3) := if fragStatus ≠ 0 then readVarLong raw pos2 else (0, pos2)
    let payload := if pos3 < raw.length then raw.drop pos3 else []
    let p : Packet := ⟨payload, channel, bypass, true, id, fragStart, fragStatus⟩
    if fragStatus = 0 then dispatchPacket s p
    else if fragStatus = 1 then
      ({ s with reassemblyBuffer := assocPut s.reassemblyBuffer fragStart payload }, [])
    else
      match assocGet s.reassemblyBuffer fragStart with
      | none => (s, [])
      | some buf =>
        let buf := buf ++ payload
        if fragStatus = 3 then
          dispatchPacket { s with reassemblyBuffer := assocRemove s.reassemblyBuffer fragStart }
            { p with payload := buf, fragmentStatus := 0 }
        else ({ s with reassemblyBuffer := assocPut s.reassemblyBuffer fragStart buf }, [])

/-- The multi-packet loop of `Puffer::parse` (Puffer.hpp lines 578-587).
Fuel note: when `readVarLong` fails mid-buffer it does not advance the
cursor and the C++ loop spins forever; no execution below reaches that. -/
def parseMulti (plain : List Nat) : Nat → Nat → Puffer × List Ev → Puffer × List Ev
  | _, 0, acc => acc
  | pAt, fuel + 1, (s, evs) =>
    if pAt < plain.length then
      let (pktLen, pAt1) := readVarLong plain pAt
      if pAt1 + pktLen > plain.length then (s, evs)
      else
        let (s, evs2) := parsePacket s ((plain.drop pAt1).take pktLen)
        parseMulti plain (pAt1 + pktLen) fuel (s, evs ++ evs2)
    else (s, evs)

/-- The packet-extraction stage of `Puffer::parse` (Puffer.hpp lines
566-587): one packet when the single-header bit is set, else the
multi-packet loop. -/
def parseDispatchStage (s : Puffer) (plain2 : List Nat) (pAt : Nat) (single : Bool) :
    Puffer × List Ev :=
  if single then
    if pAt < plain2.length then parsePacket s (plain2.drop pAt) else (s, [])
  else parseMulti plain2 pAt (plain2.length + 1) (s, [])

/-- The closing window update of `Puffer::parse` (Puffer.hpp lines
589-592). -/
def parseFinal (s : Puffer) (bundleID : Nat) : Puffer :=
  if s.isWindowed then pretendReceived s bundleID
  else { s with lastReceivedNonce := bundleID }

/-- `Puffer::parse` from the decrypted payload on (Puffer.hpp lines
540-594): header bits, the glare decision, padding, dispatch and the
window update. -/
def parseBody (s : Puffer) (plainPayload : List Nat) (bundleID : Nat) : Puffer × List Ev :=
  let headerByte := plainPayload.headD 0
  let bundleIsPadded := (headerByte >>> 2) &&& 1 == 1
  let bundleIsSingle := (headerByte >>> 3) &&& 1 == 1
  let bundleGlarePos : Bool := (headerByte >>> 4) &&& 1 == 1
  let glared : Option Puffer :=
    if s.glareInited then
      if bundleGlarePos == s.glarePosition then none else some s
    else some { s with glarePosition := !bundleGlarePos, glareInited := true }
  match glared with
  | none => (s, [])
  | some s =>
    let (padLen, pAt) :=
      if bundleIsPadded then readVarLong plainPayload 1 else (0, 1)
    let plain2 :=
      if bundleIsPadded ∧ plainPayload.length > padLen then
        plainPayload.take (plainPayload.length - padLen)
      else plainPayload
    let (s, evs) := parseDispatchStage s plain2 pAt bundleIsSingle
    (parseFinal s bundleID, evs)

/-- `Puffer::parse` (Puffer.hpp lines 472-594), returning the new state and
the listener events fired.  The `lastSeen` timestamp write is omitted (time
is not modelled). -/
def parse (s : Puffer) (bundle : List Nat) : Puffer × List Ev :=
  let (bundleID, at0) :=
    if s.isWindowed then readVarLong bundle 0
    else ((s.lastReceivedNonce + 1) % u64Mod, 0)
  if s.isWindowed && hasReceived s bundleID then (s, [])
  else if at0 ≥ bundle.length then (s, [])
  else
    let firstByte := bundle.getD at0 0
    let wireSecure : Bool := firstByte &&& 1 == 1
    if s.isSecure != wireSecure then (s, [])
    else
      let payload := bundle.drop at0
      let plainOpt : Option (List Nat) :=
        if s.isSecure then
          if payload.length < 9 then none
          else
            let cipherLen := payload.length - 8
            let ct0 := payload.take cipherLen
            let ct := ct0.set 0 (ct0.getD 0 0 &&& 0xFE)
            let tag := payload.drop cipherLen
            aeadOpenF s.key bundleID ct tag (varLongBytes bundleID) 8
        else some payload
      match plainOpt with
      | none => (s, [])
      | some plainPayload =>
        if plainPayload.length = 0 then (s, [])
        else parseBody s plainPayload bundleID

/-! ### Puffer outbound path (Puffer.hpp lines 599-842) -/

/-- `Puffer::push`. -/
def push (s : Puffer) (p : Packet) : Puffer := { s with outbox := s.outbox ++ [p] }

/-- `Puffer::enableSecurity` (Puffer.hpp lines 184-191): adopt the key only
when it is 32 bytes.  Unlike the `Tunnel` revision it resets nothing. -/
def pufferEnableSecurity (s : Puffer) (k : List Nat) : Puffer :=
  if k.length = 32 then { s with key := k, isSecure := true } else s

/-- `Puffer::enableWindowing`. -/
def pufferEnableWindowing (s : Puffer) : Puffer := { s with isWindowed := true }

/-- The fragment-size computation of `Puffer::build` (Puffer.hpp lines
625-627): `usz fragSize = available - 15; if (fragSize < 1) fragSize = 1;`
— the subtraction is unsigned 64-bit and wraps when `available < 15`. -/
def pufferFragSize (available : Nat) : Nat :=
  let fragSize := usub available 15
  if fragSize < 1 then 1 else fragSize

/-- A fragment packet as `Puffer::build` constructs it (lines 641-660);
`idx` is the chunk index (`i - 1` of the source loop). -/
def mkFragment (p : Packet) (chunksLen idx : Nat) (chunk : List Nat) : Packet :=
  { payload := chunk, channel := p.channel, bypassHOL := false,
    important := p.important, id := p.id, fragmentStartID := p.id,
    fragmentStatus :=
      if chunksLen = 1 then 0
      else if idx = 0 then 1
      else if idx = chunksLen - 1 then 3
      else 2 }

/-- The multi-packet packing loop of `Puffer::build` (lines 673-685):
append `VarLong(len) ∥ packet` while the 5-byte margin check passes. -/
def packLoop (margin : Nat) : List Packet → List Nat → Nat → Bool → List Nat × Nat × Bool
  | [], content, consumed, imp => (content, consumed, imp)
  | p :: rest, content, consumed, imp =>
    let temp := serializePacket p
    if content.length + temp.length + 5 > margin then (content, consumed, imp)
    else packLoop margin rest (content ++ varLongBytes temp.length ++ temp)
      (consumed + 1) (imp || p.important)

/-- One iteration of the `while (outbox.length > 0)` loop of
`Puffer::build` (lines 605-771): either fragment the head packet or pack,
pad, seal and enqueue one bundle. -/
def buildStep (s : Puffer) (bBS bMS : Nat) : Puffer :=
  match s.outbox with
  | [] => s
  | first :: restOut =>
    let tempFirst := serializePacket first
    let overhead := 1 + 9 + 8 + bBS
    let available := if bMS > overhead then bMS - overhead else 0
    if tempFirst.length > available then
      let fragSize := pufferFragSize available
      let chunks := chunksOf fragSize first.payload
      let frags := chunks.enum.map (fun ic => mkFragment first chunks.length ic.1 ic.2)
      { s with outbox := frags ++ restOut }
    else
      let (content, consumed, containsImportant, isSingle) :=
        if s.outbox.length = 1 ∧ tempFirst.length ≤ available then
          ([0] ++ tempFirst, 1, first.important, true)
        else
          let (c, n, imp) := packLoop (usub bMS overhead) s.outbox [0] 0 false
          (c, n, imp, false)
      let s := { s with outbox := s.outbox.drop consumed }
      let rem := content.length % bBS
      let (content, padded) :=
        if rem ≠ 0 then
          ([0] ++ varLongBytes (bBS - rem) ++ content.drop 1 ++ zeros (bBS - rem), true)
        else (content, false)
      let header := (if s.isSecure then 1 else 0) ||| (if padded then 4 else 0)
        ||| (if isSingle then 8 else 0) ||| (if s.glarePosition then 16 else 0)
      let content := content.set 0 header
      let currentBundleID := (s.lastSentNonce + 1) % u64Mod
      let s := { s with lastSentNonce := currentBundleID }
      let bundleData0 := if s.isWindowed then varLongBytes currentBundleID else []
      let bundleData :=
        if s.isSecure then
          match aeadSealF s.key currentBundleID content (varLongBytes currentBundleID) 8 with
          | some (ct, tag) => bundleData0 ++ ct.set 0 (ct.getD 0 0 &&& 0xFE ||| 1) ++ tag
          | none => bundleData0
        else bundleData0 ++ content.set 0 (content.getD 0 0 &&& 0xFE)
      let ib : InflightBundle := ⟨currentBundleID, bundleData, containsImportant⟩
      if containsImportant then { s with inflightBundles := s.inflightBundles ++ [ib] }
      else { s with nonImportantInflightBundles := s.nonImportantInflightBundles ++ [ib] }

/-- The `while (outbox.length > 0)` loop, fuelled.  The C++ loop genuinely
diverges when a packet can never fit (see the C5 analysis); the fuel covers
every terminating execution used below. -/
def buildLoop (bBS bMS : Nat) : Nat → Puffer → Puffer
  | 0, s => s
  | fuel + 1, s => if s.outbox.isEmpty then s else buildLoop bBS bMS fuel (buildStep s bBS bMS)

def buildFuel (s : Puffer) : Nat :=
  2 * (s.outbox.length + (s.outbox.map (fun p => p.payload.length)).sum) + 2

/-- `Puffer::build` (Puffer.hpp lines 599-772), including the sender-side
glare lock of lines 601-603. -/
def build (s : Puffer) (bBS bMS : Nat) : Puffer :=
  let s := if s.glareInited then s else { s with glareInited := true }
  buildLoop bBS bMS (buildFuel s) s

/-- The heartbeat packet constructed by `Puffer::flush` (lines 798-820). -/
def mkHeartbeat (s : Puffer) : Puffer × Packet :=
  let rec0 := showReceived s
  let (s, unav) := showUnavailable s
  let payload := varLongBytes 0
    ++ varLongBytes rec0.length
    ++ (rec0.map (fun ft => varLongBytes ft.from_ ++ varLongBytes ft.to_)).flatten
    ++ varLongBytes unav.length
    ++ (unav.map (fun ft => varLongBytes ft.from_ ++ varLongBytes ft.to_)).flatten
  (s, { payload := payload, channel := 0, important := false })

/-- `Puffer::flush` (Puffer.hpp lines 789-842).  `hbDue` stands for the
elapsed-time test of lines 796; it is only consulted when
`heartbeatEnabled` (false in every state below). -/
def flush (s : Puffer) (hbDue : Bool) (bBS bMS : Nat) : Puffer × List Nat :=
  let s :=
    if s.heartbeatEnabled && hbDue then
      let (s1, hb) := mkHeartbeat s
      { s1 with outbox := hb :: s1.outbox }
    else s
  let s := if s.outbox.length > 0 then build s bBS bMS else s
  match s.nonImportantInflightBundles with
  | ib :: rest => ({ s with nonImportantInflightBundles := rest }, ib.data)
  | [] =>
    match s.inflightBundles[s.resendPosition]? with
    | some ib => ({ s with resendPosition := s.resendPosition + 1 }, ib.data)
    | none => (s, [])

/-! ## The Tunnel bundle engine (src/include/Rho/Tunnel.hpp)

The newer, divergent revision of the same engine.  Timer fields and the
asleep logic are driven by the clock; every state considered below has
`isAsleep = false` and timers that are not consulted, so they are carried
as plain fields with no clock. -/

/-- State of `Xi::Tunnel` (Tunnel.hpp lines 41-75). -/
structure Tunnel where
  key : List Nat := []
  isSecure : Bool := false
  isWindowed : Bool := false
  isAsleep : Bool := false
  destroyAfterFlush : Bool := false
  windowAfterFlush : Bool := false
  secureAfterFlush : Bool := false
  secureXAfterFlush : Bool := false
  lastSentNonce : Nat := 0
  lastReceivedNonce : Nat := 0
  receiveWindowMask : Nat := 0
  inflightBundles : List InflightBundle := []
  nonImportantInflightBundles : List InflightBundle := []
  priorityResendQueue : List InflightBundle := []
  resendPosition : Nat := 0
  droppedBundles : List Nat := []
  reassemblyBuffer : List (Nat × List Nat) := []
  outbox : List Packet := []
  theirEphemeralPublic : List Nat := []
  intendedEpheHash : List Nat := []
deriving Repr, DecidableEq

/-- `Tunnel::enableSecurity` (Tunnel.hpp lines 79-86): adopt the key (no
length check in this revision), reset the nonce sequencing and the receive
window, and clear the outbox. -/
def tunnelEnableSecurity (t : Tunnel) (s : List Nat) : Tunnel :=
  { t with
    key := s
    isSecure := true
    lastSentNonce := 0
    lastReceivedNonce := 0
    receiveWindowMask := 0
    outbox := [] }

/-- `Tunnel::enableWindowing` (Tunnel.hpp lines 87-93); the `windowSize`
argument is ignored by the source. -/
def tunnelEnableWindowing (t : Tunnel) : Tunnel :=
  { t with
    isWindowed := true
    lastSentNonce := 0
    lastReceivedNonce := 0
    receiveWindowMask := 0
    outbox := [] }

/-- `Tunnel::serializePacket` (Tunnel.hpp lines 605-619): same as the
Puffer one except the id is written only in windowed mode. -/
def tunnelSerializePacket (isWindowed : Bool) (p : Packet) : List Nat :=
  let header := p.fragmentStatus &&& 0x03
  let header := if p.channel ≠ 1 then header ||| 4 else header
  let header := if p.bypassHOL then header ||| 8 else header
  [header] ++ (if isWindowed then varLongBytes p.id else [])
    ++ (if p.channel ≠ 1 then varLongBytes p.channel else [])
    ++ (if p.fragmentStatus ≠ 0 then varLongBytes p.fragmentStartID else [])
    ++ p.payload

/-- The multi-packet packing loop of `Tunnel::build` (lines 450-459),
with its 9-byte margin. -/
def tunnelPackLoop (avail : Nat) (isWindowed : Bool) :
    List Packet → List Nat → Nat → Bool → List Nat × Nat × Bool
  | [], content, consumed, imp => (content, consumed, imp)
  | p :: rest, content, consumed, imp =>
    let temp := tunnelSerializePacket isWindowed p
    if content.length + temp.length + 9 > avail then (content, consumed, imp)
    else tunnelPackLoop avail isWindowed rest
      (content ++ varLongBytes temp.length ++ temp) (consumed + 1) (imp || p.important)

/-- A fragment as `Tunnel::build` constructs it (lines 432-438): status
from the offset position; note the source unshifts the fragments in
generation order, leaving them reversed at the head of the outbox. -/
def tunnelMkFragment (p : Packet) (chunksLen idx : Nat) (chunk : List Nat) : Packet :=
  { payload := chunk, channel := p.channel, bypassHOL := false,
    important := p.important, id := p.id, fragmentStartID := p.id,
    fragmentStatus :=
      if idx = 0 then (if chunksLen = 1 then 0 else 1)
      else if idx = chunksLen - 1 then 3
      else 2 }

/-- One iteration of the `while (outbox.size() > 0)` loop of
`Tunnel::build` (Tunnel.hpp lines 409-515). -/
def tunnelBuildStep (t : Tunnel) (bBS bMS : Nat) : Tunnel :=
  match t.outbox with
  | [] => t
  | first :: restOut =>
    let tF := tunnelSerializePacket t.isWindowed first
    let overhead := 1 + (if t.isWindowed then 9 else 0) + 8 + bBS
    let avail := if bMS > overhead then bMS - overhead else 0
    if t.isWindowed ∧ tF.length > avail then
      let fS := if avail > 15 then avail - 15 else 1
      let chunks := chunksOf fS first.payload
      let frags := chunks.enum.map (fun ic => tunnelMkFragment first chunks.length ic.1 ic.2)
      { t with outbox := frags.reverse ++ restOut }
    else
      let (py, consumed, important, single) :=
        if t.outbox.length = 1 ∨ t.isWindowed = false then
          ([0] ++ tF, 1, first.important, true)
        else
          let (c, n, imp) := tunnelPackLoop avail t.isWindowed t.outbox [0] 0 false
          (c, n, imp, false)
      let t := { t with outbox := t.outbox.drop consumed }
      let dL := py.length - 1
      let lV := varLongBytes dL
      let cT := 1 + lV.length + dL
      let rem := cT % bBS
      let (fP, pad) :=
        if rem ≠ 0 then ([0] ++ lV ++ py.drop 1 ++ zeros (bBS - rem), true)
        else ([0] ++ py.drop 1, false)
      let header := (if t.isSecure then 1 else 0) ||| (if pad then 4 else 0)
        ||| (if single then 8 else 0)
      let fP := fP.set 0 header
      let cBID := if t.isWindowed then (t.lastSentNonce + 1) % u64Mod else 0
      let t := if t.isWindowed then { t with lastSentNonce := cBID } else t
      let bD0 := if t.isWindowed then varLongBytes cBID else []
      let bD :=
        if t.isSecure then
          let aad := if t.isWindowed then varLongBytes cBID else []
          match aeadSealF t.key cBID fP aad 8 with
          | some (ct, tag) => bD0 ++ tag ++ ct
          | none => bD0
        else bD0 ++ fP
      let ib : InflightBundle := ⟨cBID, bD, if t.isWindowed then important else false⟩
      if ib.important then { t with inflightBundles := t.inflightBundles ++ [ib] }
      else { t with nonImportantInflightBundles := t.nonImportantInflightBundles ++ [ib] }

/-! ## The Railway channel multiplexer (src/include/Rho/Railway.hpp) -/

/-- Per-channel state `Railway::RailwayChannel` (Railway.hpp lines 34-49). -/
structure RailwayChannel where
  key : List Nat := []
  bitmap : List Nat := []
  slidePos : Nat := 0
  lastSentNonce : Nat := 0
  lastReceivedMeta : List Nat := []
  updateMeta : Bool := false
  meta : List (Nat × List Nat) := []
deriving Repr, DecidableEq

/-- The metadata serialization of `Railway::build` (lines 163-169):
`VarLong(key) ∥ VarLong(len) ∥ value` per entry, in map order. -/
def railwaySerializeMeta (meta : List (Nat × List Nat)) : List Nat :=
  (meta.map (fun kv => varLongBytes kv.1 ++ varLongBytes kv.2.length ++ kv.2)).flatten

/-- `Railway::build` (Railway.hpp lines 150-221) on the packet's channel
state (the surrounding `this->get(pkt.channel)` map lookup supplies `ch`).
Returns the updated channel state and the wire bytes.  When the key is
present but not 32 bytes, `aeadSeal` fails and leaves `aeo.tag`/`aeo.text`
untouched, so the source emits the empty tag and the plaintext content —
reproduced here by the `none` arm. -/
def railwayBuild (ch : RailwayChannel) (channel : Nat) (payload : List Nat) :
    RailwayChannel × List Nat :=
  let isSecure := ch.key.length > 0
  let header : Nat := if isSecure then 1 else 0
  let metaBytes := railwaySerializeMeta ch.meta
  let hasMeta := ch.updateMeta || constantTimeEquals metaBytes ch.lastReceivedMeta 0
  let content := (if hasMeta then varLongBytes metaBytes.length ++ metaBytes else []) ++ payload
  let header := if hasMeta then header ||| 4 else header
  let ch := if hasMeta then { ch with updateMeta := false } else ch
  let ad := [header, (channel >>> 16) % 256, (channel >>> 8) % 256, channel % 256]
  if isSecure then
    let ch := { ch with lastSentNonce := (ch.lastSentNonce + 1) % u64Mod }
    let nonce := ch.lastSentNonce
    match aeadSealF ch.key nonce content ad 8 with
    | some (ct, tag) => (ch, ad ++ varLongBytes nonce ++ tag ++ ct)
    | none => (ch, ad ++ varLongBytes nonce ++ content)
  else (ch, ad ++ content)

/-! ## BLAKE2b, HKDF and X25519

`Xi::hash` and `Xi::kdf` (Crypto.hpp) build on `crypto_blake2b` of
packages/monocypher, and `Xi::sharedKey` on `crypto_x25519`; neither
package file is under src/, so the primitives are modelled from the spec
(standard BLAKE2b and X25519). -/

/-- 64-bit right rotation. -/
def rotr64 (x n : Nat) : Nat := (x >>> n ||| x <<< (64 - n)) % u64Mod

/-- Modelled from the spec: the BLAKE2b initialization vector
(`crypto_blake2b` of packages/monocypher, absent from src/). -/
def blakeIV : List Nat :=
  [0x6a09e667f3bcc908, 0xbb67ae8584caa73b, 0x3c6ef372fe94f82b, 0xa54ff53a5f1d36f1,
   0x510e527fade682d1, 0x9b05688c2b3e6c1f, 0x1f83d9abfb41bd6b, 0x5be0cd19137e2179]

/-- Modelled from the spec: the BLAKE2 message schedule. -/
def blakeSigma : List (List Nat) :=
  [[0, 1, 2, 3, 4, 5, 6, 7, 8, 9, 10, 11, 12, 13, 14, 15],
   [14, 10, 4, 8, 9, 15, 13, 6, 1, 12, 0, 2, 11, 7, 5, 3],
   [11, 8, 12, 0, 5, 2, 15, 13, 10, 14, 3, 6, 7, 1, 9, 4],
   [7, 9, 3, 1, 13, 12, 11, 14, 2, 6, 5, 10, 4, 0, 15, 8],
   [9, 0, 5, 7, 2, 4, 10, 15, 14, 1, 11, 12, 6, 8, 3, 13],
   [2, 12, 6, 10, 0, 11, 8, 3, 4, 13, 7, 5, 15, 14, 1, 9],
   [12, 5, 1, 15, 14, 13, 4, 10, 0, 7, 6, 3, 9, 2, 8, 11],
   [13, 11, 7, 14, 12, 1, 3, 9, 5, 0, 15, 4, 8, 6, 2, 10],
   [6, 15, 14, 9, 11, 3, 0, 8, 12, 2, 13, 7, 1, 4, 10, 5],
   [10, 2, 8, 4, 7, 6, 1, 5, 15, 11, 9, 14, 3, 12, 13, 0]]

/-- Modelled from the spec: the BLAKE2b mixing function G. -/
def blakeG (v : List Nat) (a b c d x y : Nat) : List Nat :=
  let va := v.getD a 0
  let vb := v.getD b 0
  let vc := v.getD c 0
  let vd := v.getD d 0
  let va := (va + vb + x) % u64Mod
  let vd := rotr64 (vd ^^^ va) 32
  let vc := (vc + vd) % u64Mod
  let vb := rotr64 (vb ^^^ vc) 24
  let va := (va + vb + y) % u64Mod
  let vd := rotr64 (vd ^^^ va) 16
  let vc := (vc + vd) % u64Mod
  let vb := rotr64 (vb ^^^ vc) 63
  (((v.set a va).set b vb).set c vc).set d vd

/-- Modelled from the spec: one BLAKE2b round. -/
def blakeRound (m : List Nat) (v : List Nat) (i : Nat) : List Nat :=
  let sg := blakeSigma.getD (i % 10) []
  let v := blakeG v 0 4 8 12 (m.getD (sg.getD 0 0) 0) (m.getD (sg.getD 1 0) 0)
  let v := blakeG v 1 5 9 13 (m.getD (sg.getD 2 0) 0) (m.getD (sg.getD 3 0) 0)
  let v := blakeG v 2 6 10 14 (m.getD (sg.getD 4 0) 0) (m.getD (sg.getD 5 0) 0)
  let v := blakeG v 3 7 11 15 (m.getD (sg.getD 6 0) 0) (m.getD (sg.getD 7 0) 0)
  let v := blakeG v 0 5 10 15 (m.getD (sg.getD 8 0) 0) (m.getD (sg.getD 9 0) 0)
  let v := blakeG v 1 6 11 12 (m.getD (sg.getD 10 0) 0) (m.getD (sg.getD 11 0) 0)
  let v := blakeG v 2 7 8 13 (m.getD (sg.getD 12 0) 0) (m.getD (sg.getD 13 0) 0)
  let v := blakeG v 3 4 9 14 (m.getD (sg.getD 14 0) 0) (m.getD (sg.getD 15 0) 0)
  v

/-- Modelled from the spec: the BLAKE2b compression function (12 rounds). -/
def blakeCompress (h : List Nat) (block : List Nat) (t : Nat) (last : Bool) : List Nat :=
  let m := (chunksOf 8 block).map leNat
  let v := h ++ blakeIV
  let v := v.set 12 (v.getD 12 0 ^^^ t % u64Mod)
  let v := v.set 13 (v.getD 13 0 ^^^ t / u64Mod)
  let v := if last then v.set 14 (v.getD 14 0 ^^^ (u64Mod - 1)) else v
  let v := (List.range 12).foldl (blakeRound m) v
  (List.range 8).map (fun i => h.getD i 0 ^^^ v.getD i 0 ^^^ v.getD (i + 8) 0)

/-- Modelled from the spec: the BLAKE2b block loop; all blocks are full
except the zero-padded final one, with the byte counter `t` including only
real input bytes of the final block. -/
def blake2bLoop : Nat → List Nat → Nat → List Nat → List Nat
  | 0, h, _, _ => h
  | fuel + 1, h, t, data =>
    if data.length > 128 then
      blake2bLoop fuel (blakeCompress h (data.take 128) (t + 128) false) (t + 128) (data.drop 128)
    else blakeCompress h (data.take 128 ++ zeros (128 - data.length)) (t + data.length) true

/-- Modelled from the spec: BLAKE2b with digest length `outLen` and an
optional key (`crypto_blake2b` / `crypto_blake2b_keyed` of
packages/monocypher, absent from src/). -/
def blake2b (outLen : Nat) (key input : List Nat) : List Nat :=
  let h0 := blakeIV.set 0 (blakeIV.getD 0 0 ^^^ (0x01010000 ||| key.length <<< 8 ||| outLen))
  let data := (if key.length > 0 then key ++ zeros (128 - key.length) else []) ++ input
  let h := blake2bLoop (data.length / 128 + 1) h0 0 data
  ((h.map (leBytes 8)).flatten).take outLen

/-- `Xi::hash` (Crypto.hpp lines 76-87). -/
def hashB (input : List Nat) (length : Nat) (key : List Nat) : List Nat :=
  if length > 64 ∨ length < 1 then []
  else blake2b length key input

/-- `Xi::kdf(secret, salt, info, length)` (Crypto.hpp lines 104-125):
HKDF with a 64-byte BLAKE2b hash. -/
def kdfFull (secret salt info : List Nat) (length : Nat) : List Nat :=
  if length > 255 * 64 then []
  else
    let prk := hashB secret 64 salt
    let numBlocks := (length + 63) / 64
    let okm := ((List.range numBlocks).foldl
      (fun (acc : List Nat × List Nat) i =>
        let t := hashB (acc.2 ++ info ++ [(i + 1) % 256]) 64 prk
        (acc.1 ++ t, t)) ([], [])).1
    okm.take length

/-- `Xi::kdf(secret, info, length)` (Crypto.hpp lines 127-130): empty salt. -/
def kdf (secret info : List Nat) (length : Nat) : List Nat := kdfFull secret [] info length

/-- 2^255 - 19, the Curve25519 field prime. -/
def curveP : Nat := 2 ^ 255 - 19

def fmul (a b : Nat) : Nat := a * b % curveP

def fadd (a b : Nat) : Nat := (a + b) % curveP

def fsub (a b : Nat) : Nat := (a + curveP - b % curveP) % curveP

def fpowAux : Nat → Nat → Nat → Nat
  | 0, _, _ => 1
  | fuel + 1, b, e =>
    if e = 0 then 1
    else
      let h := fpowAux fuel (fmul b b) (e / 2)
      if e % 2 = 1 then fmul b h else h

def fpow (b e : Nat) : Nat := fpowAux 300 b e

/-- Modelled from the spec: one Montgomery-ladder step of X25519
(RFC 7748), on `(x2, z2, x3, z3, swap)`. -/
def x25519Step (k u : Nat) (st : Nat × Nat × Nat × Nat × Nat) (t : Nat) : Nat × Nat × Nat × Nat × Nat :=
  let (x2, z2, x3, z3, swap) := st
  let kt := (k >>> t) % 2
  let doSwap := (swap ^^^ kt) = 1
  let (x2, x3) := if doSwap then (x3, x2) else (x2, x3)
  let (z2, z3) := if doSwap then (z3, z2) else (z2, z3)
  let a := fadd x2 z2
  let aa := fmul a a
  let b := fsub x2 z2
  let bb := fmul b b
  let e := fsub aa bb
  let c := fadd x3 z3
  let d := fsub x3 z3
  let da := fmul d a
  let cb := fmul c b
  let x3 := fmul (fadd da cb) (fadd da cb)
  let z3 := fmul u (fmul (fsub da cb) (fsub da cb))
  let x2 := fmul aa bb
  let z2 := fmul e (fadd aa (fmul 121665 e))
  (x2, z2, x3, z3, kt)

/-- Modelled from the spec: X25519 scalar multiplication
(`crypto_x25519` of packages/monocypher, absent from src/). -/
def x25519 (sec pub : List Nat) : List Nat :=
  let k := leNat sec &&& (2 ^ 255 - 8) ||| 2 ^ 254
  let u := leNat pub &&& (2 ^ 255 - 1)
  let st := ((List.range 255).reverse).foldl (x25519Step k u) (1, 0, u, 1, 0)
  let (x2, z2, x3, z3, swap) := st
  let (x2, _) := if swap = 1 then (x3, x2) else (x2, x3)
  let (z2, _) := if swap = 1 then (z3, z2) else (z2, z3)
  leBytes 32 (fmul x2 (fpow z2 (curveP - 2)))

/-- `Xi::sharedKey` (Crypto.hpp lines 157-164). -/
def sharedKey (privateKey publicKey : List Nat) : List Nat :=
  if privateKey.length ≠ 32 ∨ publicKey.length ≠ 32 then []
  else x25519 privateKey publicKey

/-! ## The Node session state machine (src/include/Rho/Node.hpp)

`Node` wraps a `Puffer` tunnel.  Its `parse` drains an inbox field of a
`Puffer` revision that is not in src/; the handshake operations needed here
(`acceptSwitch`, `flush`, the type-21 handler) only touch members the src/
`Puffer` has, and are translated directly. -/

/-- `Xi::TypedData` (Node.hpp lines 14-17). -/
structure TypedData where
  type : Nat
  data : List Nat
deriving Repr, DecidableEq

/-- `Xi::KeyPair` (Crypto.hpp lines 25-28). -/
structure KeyPair where
  publicKey : List Nat
  secretKey : List Nat
deriving Repr, DecidableEq

/-- State of `Xi::Node` (Node.hpp lines 41-63); the `activationTimeout` /
`lastSentSack` clocked pair is surfaced as the `sackDue` argument of
`nodeFlush`. -/
structure NodeState where
  tunnel : Puffer := {}
  live : Bool := false
  myEphemeralSec : List Nat := []
  myEphemeralPub : List Nat := []
  theirEphemeralPub : List Nat := []
  tempSharedSecret : List Nat := []
  lastSwitchCode : List Nat := []
  tunnelNeedsUpgrade : Bool := false
  pendingNextKey : List Nat := []
deriving Repr, DecidableEq

/-- The bytes of the C string `"RHO_SWITCH"`. -/
def rhoSwitchInfo : List Nat := [0x52, 0x48, 0x4F, 0x5F, 0x53, 0x57, 0x49, 0x54, 0x43, 0x48]

/-- The bytes of the C string `"RhoPufferV1"` (the KDF info the claim and
`Puffer::enableSecureX` use). -/
def rhoPufferV1Info : List Nat :=
  [0x52, 0x68, 0x6F, 0x50, 0x75, 0x66, 0x66, 0x65, 0x72, 0x56, 0x31]

/-- Modelled from the spec: the string-returning
`Xi::aeadSeal(key, nonce, aad, plaintext)` overload that Node.hpp calls;
only its doc comment is in src/ (Crypto.hpp line 217: returns
`[Ciphertext][Tag]`), the overload itself is not.  §4.4 of the spec fixes
the switch exchange tag length at 16. -/
def aeadSealStr (key : List Nat) (nonce : Nat) (aad plaintext : List Nat) : List Nat :=
  match aeadSealF key nonce plaintext aad 16 with
  | some (ct, tag) => ct ++ tag
  | none => []

/-- Modelled from the spec: the matching
`Xi::aeadOpen(key, nonce, aad, sealed)` overload (Crypto.hpp line 259:
returns plaintext or empty), absent from src/. -/
def aeadOpenStr (key : List Nat) (nonce : Nat) (aad sealed : List Nat) : List Nat :=
  if sealed.length < 16 then []
  else
    match aeadOpenF key nonce (sealed.take (sealed.length - 16))
        (sealed.drop (sealed.length - 16)) aad 16 with
    | some pt => pt
    | none => []

/-- `Node::serializeTypedDataArray` (Node.hpp lines 380-387). -/
def serializeTypedDataArray (items : List TypedData) : List Nat :=
  varLongBytes items.length
    ++ (items.map (fun td => varLongBytes td.type ++ varLongBytes td.data.length ++ td.data)).flatten

/-- `Node::parseTypedDataArray` (Node.hpp lines 389-405). -/
def parseTypedDataArrayLoop (l : List Nat) : Nat → Nat → List TypedData → List TypedData × Nat
  | pos, 0, acc => (acc, pos)
  | pos, cnt + 1, acc =>
    if pos ≥ l.length then (acc, pos)
    else
      let (ty, pos1) := readVarLong l pos
      let (len, pos2) := readVarLong l pos1
      if pos2 + len > l.length then (acc, pos2)
      else parseTypedDataArrayLoop l (pos2 + len) cnt
        (acc ++ [⟨ty % 256, (l.drop pos2).take len⟩])

def parseTypedDataArray (l : List Nat) (pos : Nat) : List TypedData × Nat :=
  let (count, pos1) := readVarLong l pos
  parseTypedDataArrayLoop l pos1 count []

/-- `Node::serializeStatics` (Node.hpp lines 407-415): each static as
`publicKey(32) ∥ BLAKE2b-8(X25519(secret, theirEph))`. -/
def serializeStatics (items : List KeyPair) (theirEph : List Nat) : List Nat :=
  varLongBytes items.length
    ++ (items.map (fun kp => kp.publicKey ++ hashB (sharedKey kp.secretKey theirEph) 8 [])).flatten

/-- `Node::parseStatics` (Node.hpp lines 417-433): alternating 32-byte
public keys and 8-byte proofs. -/
def parseStaticsLoop (l : List Nat) : Nat → Nat → List (List Nat) → List (List Nat) × Nat
  | pos, 0, acc => (acc, pos)
  | pos, cnt + 1, acc =>
    if pos + 32 + 8 > l.length then (acc, pos)
    else parseStaticsLoop l (pos + 40) cnt
      (acc ++ [(l.drop pos).take 32, (l.drop (pos + 32)).take 8])

def parseStatics (l : List Nat) (pos : Nat) : List (List Nat) × Nat :=
  let (count, pos1) := readVarLong l pos
  parseStaticsLoop l pos1 count []

/-- The proof-validation loop of `Node::handlePacket` cases 20/21 (Node.hpp
lines 324-331 and 355-362), over the alternating pub/proof list.  Note it
calls the length-less `constantTimeEquals`. -/
def validateStatics (mySec : List Nat) : List (List Nat) → List (List Nat)
  | [] => []
  | [_] => []
  | pub :: sig :: rest =>
    let shared := sharedKey mySec pub
    let calcH := hashB shared 8 []
    (if constantTimeEquals sig calcH 0 then [pub] else []) ++ validateStatics mySec rest

/-- `Node::acceptSwitch` (Node.hpp lines 185-209): seal the type-21
response, stage the session key `kdf(tempSharedSecret, "", 32)` (empty
info) behind `tunnelNeedsUpgrade`, go live. -/
def acceptSwitch (nd : NodeState) (code : List Nat) (data : List TypedData)
    (statics : List KeyPair) : NodeState :=
  if nd.live then nd
  else if nd.tempSharedSecret.length = 0 then nd
  else
    let tempKey := kdf nd.tempSharedSecret rhoSwitchInfo 32
    let plaintext := serializeTypedDataArray data ++ serializeStatics statics nd.theirEphemeralPub
    let sealed := aeadSealStr tempKey 1 code plaintext
    let payload := varLongBytes 21 ++ code ++ sealed
    { nd with
      tunnel := push nd.tunnel { payload := payload, channel := 0, important := true }
      tunnelNeedsUpgrade := true
      pendingNextKey := kdf nd.tempSharedSecret [] 32
      live := true }

/-- `Node::flush` (Node.hpp lines 94-111): flush the tunnel first, then —
after the bundle was produced — apply the staged key rotation.  `sackDue`
stands for the floating-point elapsed test of line 96; the `sendSack` call
itself is inlined from lines 230-253. -/
def nodeFlush (nd : NodeState) (sackDue : Bool) (bBS bMS : Nat) : NodeState × List Nat :=
  let nd :=
    if nd.live && nd.tunnel.isWindowed && sackDue then
      if !nd.tunnel.isWindowed then nd
      else
        let ranges := showReceived nd.tunnel
        if ranges.length = 0 then nd
        else
          let payload := varLongBytes 1 ++ varLongBytes nd.tunnel.lastReceivedNonce
            ++ varLongBytes ranges.length
            ++ (ranges.map (fun ft => varLongBytes ft.from_ ++ varLongBytes ft.to_)).flatten
          let sack : Packet := { payload := payload, channel := 0, important := false, bypassHOL := true }
          { nd with tunnel := push nd.tunnel sack }
    else nd
  let (t1, bundle) := flush nd.tunnel false bBS bMS
  let nd := { nd with tunnel := t1 }
  let nd :=
    if nd.tunnelNeedsUpgrade ∧ nd.pendingNextKey.length = 32 then
      { nd with
        tunnel := pufferEnableSecurity nd.tunnel nd.pendingNextKey
        tunnelNeedsUpgrade := false
        pendingNextKey := [] }
    else nd
  (nd, bundle)

/-- Case 21 (`SWITCH_RES`) of `Node::handlePacket` (Node.hpp lines
336-372): `payload` is the control packet payload, `pos` the cursor after
the command VarLong, `accept` the listener's `onSwitchAccepted` verdict. -/
def handleSwitchResponse (nd : NodeState) (payload : List Nat) (pos : Nat) (accept : Bool) :
    NodeState :=
  if nd.lastSwitchCode.length = 0 ∨ nd.tempSharedSecret.length = 0 then nd
  else
    let code := (payload.drop pos).take 8
    if !constantTimeEquals code nd.lastSwitchCode 0 then nd
    else
      let sealed := payload.drop (pos + 8)
      let tempKey := kdf nd.tempSharedSecret rhoSwitchInfo 32
      let plain := aeadOpenStr tempKey 1 code sealed
      if plain.length = 0 then nd
      else
        let (_, pCur) := parseTypedDataArray plain 0
        let (proofs, _) := parseStatics plain pCur
        let _ := validateStatics nd.myEphemeralSec proofs
        let nd := { nd with live := true }
        let tunnelKey := kdf nd.tempSharedSecret [] 32
        if accept then { nd with tunnel := pufferEnableSecurity nd.tunnel tunnelKey }
        else nd

/-! ## Shared lemmas -/

theorem lor_mod_two (a b : Nat) : (a ||| b) % 2 = 1 ↔ a % 2 = 1 ∨ b % 2 = 1 := by
  have ha := Nat.testBit_lor a b 0
  simp only [Nat.testBit_zero] at ha
  rcases Nat.mod_two_eq_zero_or_one (a ||| b) with h0 | h0 <;>
    rcases Nat.mod_two_eq_zero_or_one a with h1 | h1 <;>
    rcases Nat.mod_two_eq_zero_or_one b with h2 | h2 <;>
    simp [h0, h1, h2] at ha ⊢

theorem lor_one_mod_two (a : Nat) : (a ||| 1) % 2 = 1 := by
  rw [lor_mod_two]
  right
  rfl

theorem lor_eq_zero {a b : Nat} (h : a ||| b = 0) : a = 0 := by
  apply Nat.eq_of_testBit_eq
  intro i
  have h1 : (a ||| b).testBit i = false := by rw [h]; exact Nat.zero_testBit i
  rw [Nat.testBit_lor] at h1
  simp only [Bool.or_eq_false_iff] at h1
  rw [h1.1]
  exact (Nat.zero_testBit i).symm

/-- A fold that only ors values onto a non-zero accumulator stays non-zero. -/
theorem foldl_lor_ne_zero (f : Nat → Nat) (l : List Nat) :
    ∀ acc, acc ≠ 0 → l.foldl (fun a i => a ||| f i) acc ≠ 0 := by
  induction l with
  | nil => intro acc h; simpa using h
  | cons x xs ih =>
    intro acc h
    simp only [List.foldl_cons]
    exact ih (acc ||| f x) (fun hz => h (lor_eq_zero hz))

/-- With no explicit length, `constantTimeEquals` rejects every non-empty
second argument (the `aLen` shadowing bug: `aLen = 0 ≠ b.length`). -/
theorem constantTimeEquals_len0_ne_nil (a b : List Nat) (hb : b ≠ []) :
    constantTimeEquals a b 0 = false := by
  have hlen : 0 < b.length := List.length_pos.mpr hb
  have hne : (0 : Nat) ≠ b.length := by omega
  simp only [constantTimeEquals]
  rw [if_neg (by omega : ¬ (0 : Nat) > 0), if_neg (by omega : ¬ (0 : Nat) > 0),
    if_pos hne, if_neg (by omega : ¬ (0 : Nat) > b.length)]
  exact beq_eq_false_iff_ne.mpr
    (foldl_lor_ne_zero
      (fun i => (if i < 0 then a.getD i 0 else 0) ^^^ (if i < b.length then b.getD i 0 else 0))
      (List.range b.length) 1 (by omega))

/-! ## Claim C8 — constantTimeEquals

The claim says the length-less form decides byte equality and the explicit
form compares prefixes of both buffers.  The source's `usz aLen = length;`
copies the `int length` parameter (default 0) — shadowing the member — so
without an explicit length the function returns true iff `b` is empty, and
with one it never inspects the receiver's length.  The spec's description
("xors all compared bytes") is clearly the intent; the shadowing is a slip.
-/

/-- C8: evaluating `constantTimeEquals` at the failing inputs: two equal
one-byte strings compare as different; a three-byte string compares equal
to the empty string. -/
theorem claim_C8_constantTimeEquals_bug :
    constantTimeEquals [1] [1] 0 = false ∧
    constantTimeEquals [1, 2, 3] [] 0 = true ∧
    constantTimeEquals [1, 2] [1, 2] 0 = false := by decide

/-! ## Claim C9 — Railway metadata diff

The claim: metadata is included iff it changed relative to the snapshot.
`Railway::build` includes it when `updateMeta || constantTimeEquals(...)`
— the comparison is used with the *include-on-equal* polarity (the
commented-out debug line inside the branch prints "Mismatch", showing the
author believed the branch meant "changed"), and the length-less
`constantTimeEquals` itself is the C8 bug, so metadata is actually included
iff `updateMeta` or the stored snapshot is empty. -/

/-- The channel state of the C9 failing input: serialized local metadata
`[1,1,7]`, stored snapshot `[9,9,9]`, `updateMeta` false. -/
def c9Channel : RailwayChannel := { meta := [(1, [7])], lastReceivedMeta := [9, 9, 9] }

/-- C9: at the failing input the serialized metadata differs from the
snapshot, yet the emitted wire bytes carry no metadata and the has-meta
header bit (bit 2) is clear. -/
theorem claim_C9_meta_diff_bug :
    railwaySerializeMeta c9Channel.meta ≠ c9Channel.lastReceivedMeta ∧
    c9Channel.updateMeta = false ∧
    (railwayBuild c9Channel 5 [42]).2 = [0, 0, 0, 5, 42] ∧
    (railwayBuild c9Channel 5 [42]).2.headD 0 &&& 4 = 0 := by decide

/-! ## Claim C5 — fragmentation sizing

The claim (and the spec): `fragSize = max(available - 15, 1)`.  The source
computes `usz fragSize = available - 15;` in unsigned arithmetic, so for
`available < 15` it wraps to near `2^64` and the `if (fragSize < 1)` clamp
is dead; the companion `Tunnel` revision has the correct
`avail > 15 ? avail - 15 : 1`.  With `build(32, 60)` (so `available = 10`)
and a 20-byte payload, the code produces a single oversized "single"
fragment instead of the twenty 1-byte chunks the claim requires (and the
build loop then never terminates). -/

/-- The packet of the C5 failing input: a 20-byte payload that must be
fragmented under `available = 10`. -/
def c5Packet : Packet := { payload := List.replicate 20 3 }

/-- C5: at `available = 10` the code's fragment size is `2^64 - 5`, not
`max(10 - 15, 1) = 1`, and the fragmentation step re-queues the whole
payload as one unsliced single-status fragment. -/
theorem claim_C5_fragSize_underflow :
    pufferFragSize 10 = 2 ^ 64 - 5 ∧
    pufferFragSize 10 ≠ 1 ∧
    (buildStep { outbox := [c5Packet] } 32 60).outbox =
      [{ payload := List.replicate 20 3, channel := 1, bypassHOL := false,
         important := true, id := 0, fragmentStartID := 0, fragmentStatus := 0 }] := by decide

/-! ## Length and inversion lemmas for the AEAD -/

theorem leBytes_length (len n : Nat) : (leBytes len n).length = len := by
  unfold leBytes
  rw [List.length_map, List.length_range]

theorem chunksOfAux_length (k : Nat) (hk : 0 < k) :
    ∀ fuel l, List.length l ≤ fuel → (chunksOfAux k fuel l).length = (l.length + k - 1) / k := by
  intro fuel
  induction fuel with
  | zero =>
    intro l hl
    have hnil : l = [] := List.eq_nil_of_length_eq_zero (by omega)
    subst hnil
    have h0 : chunksOfAux k 0 ([] : List Nat) = [] := rfl
    rw [h0, List.length_nil, List.length_nil]
    exact (Nat.div_eq_of_lt (by omega)).symm
  | succ fuel ih =>
    intro l hl
    match l with
    | [] =>
      have h0 : chunksOfAux k (fuel + 1) ([] : List Nat) = [] := rfl
      rw [h0, List.length_nil, List.length_nil]
      exact (Nat.div_eq_of_lt (by omega)).symm
    | x :: xs =>
      have hl2 : xs.length + 1 ≤ fuel + 1 := by simpa using hl
      have hdrop : (List.drop k (x :: xs)).length ≤ fuel := by
        rw [List.length_drop, List.length_cons]
        omega
      have hstep : chunksOfAux k (fuel + 1) (x :: xs)
          = List.take k (x :: xs) :: chunksOfAux k fuel (List.drop k (x :: xs)) := rfl
      rw [hstep, List.length_cons, ih (List.drop k (x :: xs)) hdrop]
      rw [List.length_drop, List.length_cons]
      rcases le_or_lt (xs.length + 1) k with hle | hlt
      · have h1 : xs.length + 1 - k = 0 := by omega
        rw [h1]
        have h2 : (0 + k - 1) / k = 0 := Nat.div_eq_of_lt (by omega)
        have h3 : (xs.length + 1 + k - 1) / k = 1 := by
          have hm : xs.length + 1 + k - 1 = xs.length + k := by omega
          rw [hm]
          exact Nat.div_eq_of_lt_le (by omega) (by omega)
        omega
      · have h1 : xs.length + 1 + k - 1 = (xs.length + 1 - k + k - 1) + k := by omega
        rw [h1, Nat.add_div_right _ hk]

theorem chunksOf_length (k : Nat) (hk : 0 < k) (l : List Nat) :
    (chunksOf k l).length = (l.length + k - 1) / k :=
  chunksOfAux_length k hk l.length l (le_refl _)

theorem sum_map_const {α : Type} (l : List α) (c : Nat) :
    (l.map (fun _ => c)).sum = c * l.length := by
  induction l with
  | nil => simp
  | cons x xs ih => simp [ih]; ring

theorem flatten_length_of_const {α : Type} (L : List (List α)) (c : Nat)
    (h : ∀ x ∈ L, x.length = c) : L.flatten.length = c * L.length := by
  rw [List.length_flatten]
  have : L.map List.length = L.map (fun _ => c) := List.map_congr_left h
  rw [this, sum_map_const]

theorem chachaQR_length (st : List Nat) (a b c d : Nat) :
    (chachaQR st a b c d).length = st.length := by
  unfold chachaQR
  simp [List.length_set]

theorem chachaDoubleRound_length (st : List Nat) :
    (chachaDoubleRound st).length = st.length := by
  unfold chachaDoubleRound
  simp [chachaQR_length]

theorem chachaRounds_length : ∀ (n : Nat) (st : List Nat),
    (chachaRounds n st).length = st.length := by
  intro n
  induction n with
  | zero => intro st; rfl
  | succ n ih =>
    intro st
    show (chachaRounds n (chachaDoubleRound st)).length = _
    rw [ih, chachaDoubleRound_length]

theorem chachaBlock_length (key nonce : List Nat) (counter : Nat)
    (hkey : key.length = 32) (hnonce : nonce.length = 12) :
    (chachaBlock key nonce counter).length = 64 := by
  unfold chachaBlock
  have hck : (chunksOf 4 key).length = 8 := by rw [chunksOf_length 4 (by omega), hkey]
  have hcn : (chunksOf 4 nonce).length = 3 := by rw [chunksOf_length 4 (by omega), hnonce]
  have hst0 : ([0x61707865, 0x3320646e, 0x79622d32, 0x6b206574]
      ++ (chunksOf 4 key).map leNat ++ [counter % u32Mod]
      ++ (chunksOf 4 nonce).map leNat).length = 16 := by
    simp [hck, hcn]
  rw [flatten_length_of_const _ 4 (by
    intro x hx
    rw [List.mem_map] at hx
    obtain ⟨y, _, hy⟩ := hx
    rw [← hy, leBytes_length])]
  rw [List.length_map, List.length_zipWith, chachaRounds_length]
  rw [hst0]
  omega

theorem chachaKeystream_length (key nonce : List Nat) (counter len : Nat)
    (hkey : key.length = 32) (hnonce : nonce.length = 12) :
    (chachaKeystream key nonce counter len).length = len := by
  unfold chachaKeystream
  rw [List.length_take]
  have hfl : (((List.range ((len + 63) / 64)).map
      (fun i => chachaBlock key nonce ((counter + i) % u32Mod))).flatten).length
      = 64 * ((len + 63) / 64) := by
    rw [flatten_length_of_const _ 64 (by
      intro x hx
      rw [List.mem_map] at hx
      obtain ⟨y, _, hy⟩ := hx
      rw [← hy, chachaBlock_length _ _ _ hkey hnonce])]
    rw [List.length_map, List.length_range]
  rw [hfl]
  omega

theorem createIetfNonce_length (nonce : Nat) : (createIetfNonce nonce).length = 12 := by
  unfold createIetfNonce zeros
  rw [List.length_append, List.length_replicate, leBytes_length]

theorem streamXor_length (key : List Nat) (nonce : Nat) (text : List Nat) (counter : Nat)
    (hkey : key.length = 32) : (streamXor key nonce text counter).length = text.length := by
  unfold streamXor
  rw [if_neg (by omega)]
  rw [List.length_zipWith, chachaKeystream_length _ _ _ _ hkey (createIetfNonce_length nonce)]
  omega

theorem zipWith_xor_cancel : ∀ (t ks : List Nat), t.length ≤ ks.length →
    List.zipWith (fun a b => a ^^^ b) (List.zipWith (fun a b => a ^^^ b) t ks) ks = t := by
  intro t
  induction t with
  | nil => intro ks _; simp
  | cons x xs ih =>
    intro ks hks
    match ks with
    | [] => simp at hks
    | k :: ks2 =>
      simp only [List.zipWith_cons_cons]
      rw [ih ks2 (by simpa using hks)]
      congr 1
      exact Nat.xor_cancel_right k x

/-- Decrypting with the same key/nonce/counter undoes the stream cipher. -/
theorem streamXor_involution (key : List Nat) (nonce : Nat) (text : List Nat) (counter : Nat)
    (hkey : key.length = 32) :
    streamXor key nonce (streamXor key nonce text counter) counter = text := by
  have hlen := streamXor_length key nonce text counter hkey
  unfold streamXor
  rw [if_neg (by omega), if_neg (by omega)]
  have hkslen : (chachaKeystream key (createIetfNonce nonce) counter text.length).length
      = text.length := chachaKeystream_length _ _ _ _ hkey (createIetfNonce_length nonce)
  have hsame : (List.zipWith (fun a b => a ^^^ b) text
      (chachaKeystream key (createIetfNonce nonce) counter text.length)).length = text.length := by
    rw [List.length_zipWith, hkslen]
    omega
  unfold streamXor at hlen
  rw [if_neg (by omega)] at hlen
  rw [hlen]
  exact zipWith_xor_cancel text _ (by omega)

theorem poly1305_length (msg otk : List Nat) : (poly1305 msg otk).length = 16 := by
  unfold poly1305
  exact leBytes_length 16 _

/-- A fold that only ors zero contributions leaves the accumulator alone. -/
theorem foldl_lor_zero (f : Nat → Nat) : ∀ (l : List Nat) (acc : Nat),
    (∀ i ∈ l, f i = 0) → l.foldl (fun a i => a ||| f i) acc = acc := by
  intro l
  induction l with
  | nil => intro acc _; rfl
  | cons x xs ih =>
    intro acc h
    simp only [List.foldl_cons]
    rw [h x (by simp), Nat.or_zero]
    exact ih acc (fun i hi => h i (by simp [hi]))

/-- `constantTimeEquals` accepts a truncated tag against the full tag with
the truncation length passed explicitly (the `aeadOpen` use). -/
theorem constantTimeEquals_take (b : List Nat) (tl : Nat) (h1 : 0 < tl) (h2 : tl ≤ b.length) :
    constantTimeEquals (b.take tl) b tl = true := by
  simp only [constantTimeEquals]
  rw [if_pos (by omega : tl > 0), if_pos (by omega : tl > 0),
    if_neg (by omega : ¬ (tl < tl ∨ b.length < tl))]
  rw [foldl_lor_zero _ _ 0 ?_]
  · rfl
  · intro i hi
    rw [List.mem_range] at hi
    rw [if_pos hi, if_pos (by omega : i < b.length)]
    have hget : (b.take tl).getD i 0 = b.getD i 0 := by
      simp [List.getD_eq_getElem?_getD, List.getElem?_take, hi]
    rw [hget, Nat.xor_self]

/-- The round-trip of the embedded AEAD (`Xi::aeadOpen ∘ Xi::aeadSeal`):
supporting evidence for claim C3.  The flip-failure half of C3 is a
cryptographic property of Poly1305 and is not settled here. -/
theorem aeadOpen_aeadSeal_roundtrip (key : List Nat) (nonce : Nat) (text ad : List Nat)
    (tagLen : Nat) (hkey : key.length = 32) (h1 : 0 < tagLen) (h2 : tagLen ≤ 16)
    (ct tag : List Nat) (hseal : aeadSealF key nonce text ad tagLen = some (ct, tag)) :
    aeadOpenF key nonce ct tag ad tagLen = some text := by
  unfold aeadSealF at hseal
  rw [if_neg (by omega)] at hseal
  simp only [Option.some_inj, Prod.mk.injEq] at hseal
  obtain ⟨hct, htag⟩ := hseal
  unfold aeadOpenF
  rw [if_neg (by omega)]
  have hctEq : constantTimeEquals tag
      (poly1305 (aeadAuthData ad ct) (createPoly1305Key key nonce)) tagLen = true := by
    rw [← htag, ← hct]
    exact constantTimeEquals_take _ tagLen h1 (by rw [poly1305_length]; omega)
  dsimp only
  rw [hctEq]
  simp only [if_true]
  rw [← hct, streamXor_involution key nonce text 1 hkey]

/-- Witness for the AEAD round trip at a concrete instance. -/
theorem aeadOpen_aeadSeal_roundtrip_witness :
    aeadOpenF (List.replicate 32 7) 3
      (aeadSealF (List.replicate 32 7) 3 [1, 2, 3] [9] 8).get!.1
      (aeadSealF (List.replicate 32 7) 3 [1, 2, 3] [9] 8).get!.2 [9] 8 = some [1, 2, 3] := by
  have h := aeadOpen_aeadSeal_roundtrip (List.replicate 32 7) 3 [1, 2, 3] [9] 8
    (by decide) (by decide) (by decide)
    (aeadSealF (List.replicate 32 7) 3 [1, 2, 3] [9] 8).get!.1
    (aeadSealF (List.replicate 32 7) 3 [1, 2, 3] [9] 8).get!.2 (by decide)
  exact h

/-! ## Claim C4 — the receive window invariant -/

/-- A sequence of `pretendReceived` calls. -/
def applyPretendAll (s : Puffer) (l : List Nat) : Puffer := l.foldl pretendReceived s

theorem pretendReceived_lrn (s : Puffer) (id : Nat) :
    (pretendReceived s id).lastReceivedNonce = max s.lastReceivedNonce id := by
  unfold pretendReceived
  by_cases h0 : id = 0
  · subst h0; simp
  · rw [if_neg h0]
    by_cases hgt : id > s.lastReceivedNonce
    · rw [if_pos hgt]
      dsimp only
      omega
    · rw [if_neg hgt]
      dsimp only
      by_cases hd : s.lastReceivedNonce - id < 64
      · rw [if_pos hd]
        dsimp only
        omega
      · rw [if_neg hd]
        omega

theorem applyPretendAll_lrn : ∀ (l : List Nat) (s : Puffer),
    (applyPretendAll s l).lastReceivedNonce = l.foldl max s.lastReceivedNonce := by
  intro l
  induction l with
  | nil => intro s; rfl
  | cons x xs ih =>
    intro s
    show (applyPretendAll (pretendReceived s x) xs).lastReceivedNonce = _
    rw [ih, List.foldl_cons, pretendReceived_lrn]

theorem pretendReceived_bit0 (s : Puffer) (id : Nat)
    (h : s.lastReceivedNonce ≠ 0 → s.receiveWindowMask % 2 = 1) :
    (pretendReceived s id).lastReceivedNonce ≠ 0 →
      (pretendReceived s id).receiveWindowMask % 2 = 1 := by
  unfold pretendReceived
  by_cases h0 : id = 0
  · subst h0; simpa using h
  · rw [if_neg h0]
    by_cases hgt : id > s.lastReceivedNonce
    · rw [if_pos hgt]
      intro _
      dsimp only
      by_cases hd : id - s.lastReceivedNonce ≥ 64
      · rw [if_pos hd]
      · rw [if_neg hd]
        exact lor_one_mod_two _
    · rw [if_neg hgt]
      by_cases hd : s.lastReceivedNonce - id < 64
      · rw [if_pos hd]
        intro hne
        simp only at hne ⊢
        have := h hne
        rw [lor_mod_two]
        exact Or.inl this
      · rw [if_neg hd]
        exact h

theorem applyPretendAll_bit0 : ∀ (l : List Nat) (s : Puffer),
    (s.lastReceivedNonce ≠ 0 → s.receiveWindowMask % 2 = 1) →
    ((applyPretendAll s l).lastReceivedNonce ≠ 0 →
      (applyPretendAll s l).receiveWindowMask % 2 = 1) := by
  intro l
  induction l with
  | nil => intro s h; exact h
  | cons x xs ih =>
    intro s h
    exact ih (pretendReceived s x) (pretendReceived_bit0 s x h)

/-- C4: under any sequence of `pretendReceived` calls from the fresh state,
(a) `lastReceivedNonce` is the largest nonce ever marked received, (b) bit 0
of the mask tracks that nonce (`hasReceived lastReceivedNonce` holds), the
mask shifting left (mod 2^64, with OR of bit 0) whenever a larger nonce
arrives, and (c) `hasReceived id` decides exactly
`id = 0 ∨ (id ≤ lastReceivedNonce ∧ 64 ≤ lastReceivedNonce − id) ∨ bit
(lastReceivedNonce − id) of the mask`. -/
theorem claim_C4_receive_window (l : List Nat) (_hbound : ∀ id ∈ l, id < u64Mod) :
    (applyPretendAll {} l).lastReceivedNonce = l.foldl max 0 ∧
    ((applyPretendAll {} l).lastReceivedNonce ≠ 0 →
      (applyPretendAll {} l).receiveWindowMask % 2 = 1 ∧
      hasReceived (applyPretendAll {} l) (applyPretendAll {} l).lastReceivedNonce = true) ∧
    (∀ (t : Puffer) (id : Nat), id > t.lastReceivedNonce →
      (pretendReceived t id).receiveWindowMask =
        (t.receiveWindowMask <<< (id - t.lastReceivedNonce)) % u64Mod ||| 1 ∧
      (pretendReceived t id).lastReceivedNonce = id) ∧
    (∀ (t : Puffer) (id : Nat),
      hasReceived t id = (decide (id = 0) ||
        (decide (id ≤ t.lastReceivedNonce) &&
          (decide (64 ≤ t.lastReceivedNonce - id) ||
            decide ((t.receiveWindowMask >>> (t.lastReceivedNonce - id)) % 2 = 1))))) := by
  refine ⟨applyPretendAll_lrn l {}, ?_, ?_, ?_⟩
  · intro hne
    have hbit := applyPretendAll_bit0 l {} (by intro hc; exact absurd rfl hc) hne
    refine ⟨hbit, ?_⟩
    unfold hasReceived
    set t := applyPretendAll {} l
    rw [if_neg hne, if_neg (by omega : ¬ t.lastReceivedNonce > t.lastReceivedNonce)]
    rw [if_neg (by omega : ¬ t.lastReceivedNonce - t.lastReceivedNonce ≥ 64)]
    have hz : t.lastReceivedNonce - t.lastReceivedNonce = 0 := by omega
    rw [hz, Nat.shiftRight_zero]
    simpa using hbit
  · intro t id hgt
    have h0 : id ≠ 0 := by omega
    unfold pretendReceived
    rw [if_neg h0, if_pos hgt]
    dsimp only
    refine ⟨?_, rfl⟩
    by_cases hd : id - t.lastReceivedNonce ≥ 64
    · rw [if_pos hd]
      have hdvd : u64Mod ∣ t.receiveWindowMask <<< (id - t.lastReceivedNonce) := by
        rw [Nat.shiftLeft_eq]
        exact dvd_trans (pow_dvd_pow 2 hd) (dvd_mul_left _ _)
      rw [Nat.mod_eq_zero_of_dvd hdvd]
      decide
    · rw [if_neg hd]
  · intro t id
    unfold hasReceived
    by_cases h0 : id = 0
    · simp [h0]
    · rw [if_neg h0]
      by_cases hgt : id > t.lastReceivedNonce
      · rw [if_pos hgt]
        have hle : ¬ id ≤ t.lastReceivedNonce := by omega
        simp [h0, hle]
      · rw [if_neg hgt]
        have hle : id ≤ t.lastReceivedNonce := by omega
        by_cases hd : t.lastReceivedNonce - id ≥ 64
        · rw [if_pos hd]
          simp [hle, hd]
        · rw [if_neg hd]
          have hnd : ¬ 64 ≤ t.lastReceivedNonce - id := hd
          simp [h0, hle, hnd]

/-- C4 witness: the invariant at the call sequence `[1, 3, 2]`. -/
theorem claim_C4_receive_window_witness :
    (applyPretendAll {} [1, 3, 2]).lastReceivedNonce = [1, 3, 2].foldl max 0 :=
  (claim_C4_receive_window [1, 3, 2] (by decide)).1

/-! ## Claim C10 — enableSecurity / enableWindowing frame effects -/

/-- C10: `Tunnel::enableSecurity` with a 32-byte key and
`Tunnel::enableWindowing` both zero `lastSentNonce`, `lastReceivedNonce`
and the 64-bit receive window mask, and clear the outbox (discarding every
packet pushed but not yet built). -/
theorem claim_C10_enable_resets (t : Tunnel) (k : List Nat) (_hk : k.length = 32) :
    (tunnelEnableSecurity t k).lastSentNonce = 0 ∧
    (tunnelEnableSecurity t k).lastReceivedNonce = 0 ∧
    (tunnelEnableSecurity t k).receiveWindowMask = 0 ∧
    (tunnelEnableSecurity t k).outbox = [] ∧
    (tunnelEnableSecurity t k).key = k ∧
    (tunnelEnableSecurity t k).isSecure = true ∧
    (tunnelEnableWindowing t).lastSentNonce = 0 ∧
    (tunnelEnableWindowing t).lastReceivedNonce = 0 ∧
    (tunnelEnableWindowing t).receiveWindowMask = 0 ∧
    (tunnelEnableWindowing t).outbox = [] ∧
    (tunnelEnableWindowing t).isWindowed = true := by
  refine ⟨rfl, rfl, rfl, rfl, rfl, rfl, rfl, rfl, rfl, rfl, rfl⟩

/-- C10 witness: a tunnel with a non-empty outbox and live sequencing
state, reset by either call. -/
theorem claim_C10_enable_resets_witness :
    (tunnelEnableSecurity
      { outbox := [{ payload := [1] }], lastSentNonce := 9, lastReceivedNonce := 4,
        receiveWindowMask := 5 } (List.replicate 32 2)).outbox = [] ∧
    (tunnelEnableWindowing
      { outbox := [{ payload := [1] }], lastSentNonce := 9 }).lastSentNonce = 0 :=
  ⟨(claim_C10_enable_resets
      { outbox := [{ payload := [1] }], lastSentNonce := 9, lastReceivedNonce := 4,
        receiveWindowMask := 5 } (List.replicate 32 2) (by decide)).2.2.2.1,
   (claim_C10_enable_resets
      { outbox := [{ payload := [1] }], lastSentNonce := 9 } (List.replicate 32 2)
      (by decide)).2.2.2.2.2.2.1⟩

/-! ## Claim C6 — the switch key rotation -/

/-- Every type-21 (`SWITCH_RES`) control packet is a no-op on the receiving
node: the path requires `lastSwitchCode` to be non-empty, and then the
length-less `constantTimeEquals` guard (Node.hpp line 344) returns false
for every non-empty `lastSwitchCode` (the claim C8 defect), so the handler
never reaches the `enableSecurity` call. -/
theorem handleSwitchResponse_id (nd : NodeState) (payload : List Nat) (pos : Nat)
    (accept : Bool) : handleSwitchResponse nd payload pos accept = nd := by
  unfold handleSwitchResponse
  by_cases h : nd.lastSwitchCode.length = 0 ∨ nd.tempSharedSecret.length = 0
  · rw [if_pos h]
  · rw [if_neg h]
    push_neg at h
    have hne : nd.lastSwitchCode ≠ [] := by
      intro hnil
      exact h.1 (by rw [hnil]; rfl)
    have hct : constantTimeEquals ((payload.drop pos).take 8) nd.lastSwitchCode 0 = false :=
      constantTimeEquals_len0_ne_nil _ _ hne
    dsimp only
    rw [hct]
    rfl

def c6Shared : List Nat := List.replicate 32 1

def c6Code : List Nat := [1, 2, 3, 4, 5, 6, 7, 8]

/-- A fresh responder node holding an ephemeral shared secret. -/
def c6Node : NodeState :=
  { tempSharedSecret := c6Shared, theirEphemeralPub := List.replicate 32 9 }

/-- An initiator node that sent a switch request with code `c6Code`. -/
def c6Initiator : NodeState :=
  { tempSharedSecret := c6Shared, lastSwitchCode := c6Code,
    myEphemeralSec := List.replicate 32 4 }

set_option maxHeartbeats 2000000 in
/-- **C6** (amended): the responder's `acceptSwitch` stages the session key
`kdf(tempSharedSecret, "", 32)` — the KDF info string is EMPTY, not
`"RhoPufferV1"` — behind `tunnelNeedsUpgrade`, leaving the tunnel's current
key and security mode untouched; `Node::flush` applies the staged key only
after `Puffer::flush` has produced the outgoing bundle (the returned bundle
is exactly the pre-rotation tunnel's), so the rotation takes effect at the
flush boundary; and the initiator's type-21 handler installs nothing, ever:
its `constantTimeEquals` guard fails for every non-empty `lastSwitchCode`
(the claim C8 defect), so only the responder rotates. -/
theorem claim_C6_switch_key_rotation (nd : NodeState) (code : List Nat)
    (data : List TypedData) (statics : List KeyPair)
    (hlive : nd.live = false) (hsh : nd.tempSharedSecret.length ≠ 0) :
    ((acceptSwitch nd code data statics).pendingNextKey = kdf nd.tempSharedSecret [] 32 ∧
     (acceptSwitch nd code data statics).tunnelNeedsUpgrade = true ∧
     (acceptSwitch nd code data statics).tunnel.key = nd.tunnel.key ∧
     (acceptSwitch nd code data statics).tunnel.isSecure = nd.tunnel.isSecure) ∧
    (∀ (nd2 : NodeState) (bBS bMS : Nat),
      nd2.tunnelNeedsUpgrade = true → nd2.pendingNextKey.length = 32 →
      (nodeFlush nd2 false bBS bMS).2 = (flush nd2.tunnel false bBS bMS).2 ∧
      (nodeFlush nd2 false bBS bMS).1.tunnel =
        pufferEnableSecurity (flush nd2.tunnel false bBS bMS).1 nd2.pendingNextKey ∧
      (nodeFlush nd2 false bBS bMS).1.tunnel.key = nd2.pendingNextKey ∧
      (nodeFlush nd2 false bBS bMS).1.tunnel.isSecure = true) ∧
    (∀ (nd3 : NodeState) (payload : List Nat) (pos : Nat) (accept : Bool),
      handleSwitchResponse nd3 payload pos accept = nd3) := by
  refine ⟨?_, ?_, fun nd3 payload pos accept => handleSwitchResponse_id nd3 payload pos accept⟩
  · unfold acceptSwitch
    rw [if_neg (by simp [hlive]), if_neg hsh]
    exact ⟨rfl, rfl, rfl, rfl⟩
  · intro nd2 bBS bMS hU hK
    unfold nodeFlush
    rw [if_neg (by simp : ¬((nd2.live && nd2.tunnel.isWindowed && false) = true))]
    dsimp only
    cases hfe : flush nd2.tunnel false bBS bMS with
    | mk t1 bundle =>
      dsimp only
      rw [if_pos (by exact ⟨hU, hK⟩)]
      refine ⟨rfl, rfl, ?_, ?_⟩
      · show (pufferEnableSecurity t1 nd2.pendingNextKey).key = nd2.pendingNextKey
        unfold pufferEnableSecurity
        rw [if_pos hK]
      · show (pufferEnableSecurity t1 nd2.pendingNextKey).isSecure = true
        unfold pufferEnableSecurity
        rw [if_pos hK]

/-- C6 witness: the rotation facts at a concrete fresh responder node. -/
theorem claim_C6_switch_key_rotation_witness :
    ((acceptSwitch c6Node c6Code [] []).pendingNextKey = kdf c6Node.tempSharedSecret [] 32 ∧
     (acceptSwitch c6Node c6Code [] []).tunnelNeedsUpgrade = true ∧
     (acceptSwitch c6Node c6Code [] []).tunnel.key = c6Node.tunnel.key ∧
     (acceptSwitch c6Node c6Code [] []).tunnel.isSecure = c6Node.tunnel.isSecure) ∧
    (∀ (nd2 : NodeState) (bBS bMS : Nat),
      nd2.tunnelNeedsUpgrade = true → nd2.pendingNextKey.length = 32 →
      (nodeFlush nd2 false bBS bMS).2 = (flush nd2.tunnel false bBS bMS).2 ∧
      (nodeFlush nd2 false bBS bMS).1.tunnel =
        pufferEnableSecurity (flush nd2.tunnel false bBS bMS).1 nd2.pendingNextKey ∧
      (nodeFlush nd2 false bBS bMS).1.tunnel.key = nd2.pendingNextKey ∧
      (nodeFlush nd2 false bBS bMS).1.tunnel.isSecure = true) ∧
    (∀ (nd3 : NodeState) (payload : List Nat) (pos : Nat) (accept : Bool),
      handleSwitchResponse nd3 payload pos accept = nd3) :=
  claim_C6_switch_key_rotation c6Node c6Code [] [] (by decide) (by decide)

/-- C6 counterexample to the claim as stated: the staged key differs from
`KDF(sharedSecret, "RhoPufferV1", 32)`, and even a type-21 response whose
8-byte code matches `lastSwitchCode` exactly leaves the initiator unchanged
— no key is ever installed on that side. -/
theorem claim_C6_counterexample :
    (acceptSwitch c6Node c6Code [] []).pendingNextKey ≠ kdf c6Shared rhoPufferV1Info 32 ∧
    handleSwitchResponse c6Initiator (varLongBytes 21 ++ c6Code ++ List.replicate 40 3) 1 true
      = c6Initiator ∧
    (handleSwitchResponse c6Initiator (varLongBytes 21 ++ c6Code ++ List.replicate 40 3) 1
      true).tunnel.isSecure = false := by
  refine ⟨by decide, ?_, ?_⟩
  · exact handleSwitchResponse_id _ _ _ _
  · rw [handleSwitchResponse_id]
    rfl

/-! ## Claim C7 — the glare bit

The inbound path after the glare decision never writes `glarePosition` or
`glareInited`; the lemmas below carry that through every state transformer
`Puffer::parse` can apply past the lock. -/

theorem glare_pretendReceived (s : Puffer) (id : Nat) :
    (pretendReceived s id).glarePosition = s.glarePosition ∧
    (pretendReceived s id).glareInited = s.glareInited := by
  unfold pretendReceived
  dsimp only
  split_ifs <;> exact ⟨rfl, rfl⟩

theorem glare_removeInflight (s : Puffer) (id : Nat) :
    (removeInflight s id).glarePosition = s.glarePosition ∧
    (removeInflight s id).glareInited = s.glareInited := by
  unfold removeInflight
  split <;> exact ⟨rfl, rfl⟩

theorem glare_resendFrom (s : Puffer) (x : Nat) :
    (resendFrom s x).glarePosition = s.glarePosition ∧
    (resendFrom s x).glareInited = s.glareInited := by
  unfold resendFrom
  split <;> exact ⟨rfl, rfl⟩

theorem glare_foldl (f : Puffer → Nat → Puffer)
    (hf : ∀ s id, (f s id).glarePosition = s.glarePosition ∧
      (f s id).glareInited = s.glareInited) (l : List Nat) :
    ∀ s : Puffer, (l.foldl f s).glarePosition = s.glarePosition ∧
      (l.foldl f s).glareInited = s.glareInited := by
  induction l with
  | nil => intro s; exact ⟨rfl, rfl⟩
  | cons x xs ih =>
    intro s
    rw [List.foldl_cons]
    obtain ⟨h1, h2⟩ := ih (f s x)
    obtain ⟨h3, h4⟩ := hf s x
    exact ⟨h1.trans h3, h2.trans h4⟩

theorem glare_hbRangesLoop (payload : List Nat) (f : Puffer → Nat → Puffer)
    (hf : ∀ s id, (f s id).glarePosition = s.glarePosition ∧
      (f s id).glareInited = s.glareInited) :
    ∀ (cnt pos : Nat) (s : Puffer),
      (hbRangesLoop payload f pos cnt s).1.glarePosition = s.glarePosition ∧
      (hbRangesLoop payload f pos cnt s).1.glareInited = s.glareInited := by
  intro cnt
  induction cnt with
  | zero => intro pos s; exact ⟨rfl, rfl⟩
  | succ n ih =>
    intro pos s
    simp only [hbRangesLoop]
    cases hrv1 : readVarLong payload pos with
    | mk lo pos1 =>
      dsimp only
      cases hrv2 : readVarLong payload pos1 with
      | mk hi pos2 =>
        dsimp only
        obtain ⟨h1, h2⟩ := ih pos2 ((List.range' lo (hi + 1 - lo)).foldl f s)
        obtain ⟨h3, h4⟩ := glare_foldl f hf (List.range' lo (hi + 1 - lo)) s
        exact ⟨h1.trans h3, h2.trans h4⟩

theorem glare_dispatchPacket (s : Puffer) (p : Packet) :
    (dispatchPacket s p).1.glarePosition = s.glarePosition ∧
    (dispatchPacket s p).1.glareInited = s.glareInited := by
  unfold dispatchPacket
  dsimp only
  by_cases hch : p.channel = 0
  · rw [if_pos hch]
    cases hrv : readVarLong p.payload 0 with
    | mk ty pos =>
      dsimp only
      by_cases hty : ty = 0
      · rw [if_pos hty]
        cases h1 : readVarLong p.payload pos with
        | mk cnt1 pos1 =>
          dsimp only
          cases h2 : hbRangesLoop p.payload removeInflight pos1 cnt1 s with
          | mk s2 pos2 =>
            dsimp only
            cases h3 : readVarLong p.payload pos2 with
            | mk cnt2 pos3 =>
              dsimp only
              cases h4 : hbRangesLoop p.payload pretendReceived pos3 cnt2 s2 with
              | mk s3 pos4 =>
                dsimp only
                have hb1 := glare_hbRangesLoop p.payload removeInflight
                  glare_removeInflight cnt1 pos1 s
                rw [h2] at hb1
                have hb2 := glare_hbRangesLoop p.payload pretendReceived
                  glare_pretendReceived cnt2 pos3 s2
                rw [h4] at hb2
                dsimp only at hb1 hb2
                obtain ⟨g1, g2⟩ := glare_resendFrom s3 0
                exact ⟨g1.trans (hb2.1.trans hb1.1), g2.trans (hb2.2.trans hb1.2)⟩
      · rw [if_neg hty]
        by_cases h10 : ty = 10
        · rw [if_pos h10]; exact ⟨rfl, rfl⟩
        · rw [if_neg h10]
          by_cases h11 : ty = 11
          · rw [if_pos h11]; exact ⟨rfl, rfl⟩
          · rw [if_neg h11]
            by_cases h20 : ty = 20
            · rw [if_pos h20]
              by_cases hlen : p.payload.length ≥ pos + 8 + 8 + 32
              · rw [if_pos hlen]; exact ⟨rfl, rfl⟩
              · rw [if_neg hlen]; exact ⟨rfl, rfl⟩
            · rw [if_neg h20]
              by_cases h100 : ty = 100
              · rw [if_pos h100]; exact ⟨rfl, rfl⟩
              · rw [if_neg h100]; exact ⟨rfl, rfl⟩
  · rw [if_neg hch]
    exact ⟨rfl, rfl⟩

theorem glare_parsePacket (s : Puffer) (raw : List Nat) :
    (parsePacket s raw).1.glarePosition = s.glarePosition ∧
    (parsePacket s raw).1.glareInited = s.glareInited := by
  unfold parsePacket
  split
  · exact ⟨rfl, rfl⟩
  · dsimp only
    split
    · exact glare_dispatchPacket _ _
    · split
      · exact ⟨rfl, rfl⟩
      · split
        · exact ⟨rfl, rfl⟩
        · split
          · exact glare_dispatchPacket _ _
          · exact ⟨rfl, rfl⟩

theorem glare_parseMulti (plain : List Nat) :
    ∀ (fuel pAt : Nat) (s : Puffer) (evs : List Ev),
      (parseMulti plain pAt fuel (s, evs)).1.glarePosition = s.glarePosition ∧
      (parseMulti plain pAt fuel (s, evs)).1.glareInited = s.glareInited := by
  intro fuel
  induction fuel with
  | zero => intro pAt s evs; exact ⟨rfl, rfl⟩
  | succ n ih =>
    intro pAt s evs
    simp only [parseMulti]
    split
    · cases hrv : readVarLong plain pAt with
      | mk pktLen pAt1 =>
        dsimp only
        split
        · exact ⟨rfl, rfl⟩
        · cases hpp : parsePacket s ((plain.drop pAt1).take pktLen) with
          | mk s2 evs2 =>
            dsimp only
            obtain ⟨h1, h2⟩ := ih (pAt1 + pktLen) s2 (evs ++ evs2)
            obtain ⟨h3, h4⟩ := glare_parsePacket s ((plain.drop pAt1).take pktLen)
            rw [hpp] at h3 h4
            exact ⟨h1.trans h3, h2.trans h4⟩
    · exact ⟨rfl, rfl⟩

set_option maxHeartbeats 1600000 in
theorem glare_buildStep (s : Puffer) (bBS bMS : Nat) :
    (buildStep s bBS bMS).glarePosition = s.glarePosition ∧
    (buildStep s bBS bMS).glareInited = s.glareInited := by
  unfold buildStep
  split
  · exact ⟨rfl, rfl⟩
  · dsimp only
    repeat' split
    all_goals exact ⟨rfl, rfl⟩

theorem glare_buildLoop (bBS bMS : Nat) :
    ∀ (fuel : Nat) (s : Puffer),
      (buildLoop bBS bMS fuel s).glarePosition = s.glarePosition ∧
      (buildLoop bBS bMS fuel s).glareInited = s.glareInited := by
  intro fuel
  induction fuel with
  | zero => intro s; exact ⟨rfl, rfl⟩
  | succ n ih =>
    intro s
    simp only [buildLoop]
    split
    · exact ⟨rfl, rfl⟩
    · obtain ⟨h1, h2⟩ := ih (buildStep s bBS bMS)
      obtain ⟨h3, h4⟩ := glare_buildStep s bBS bMS
      exact ⟨h1.trans h3, h2.trans h4⟩

theorem glare_parseDispatchStage (s : Puffer) (plain2 : List Nat) (pAt : Nat) (single : Bool) :
    (parseDispatchStage s plain2 pAt single).1.glarePosition = s.glarePosition ∧
    (parseDispatchStage s plain2 pAt single).1.glareInited = s.glareInited := by
  unfold parseDispatchStage
  cases single with
  | false =>
    simp only [Bool.false_eq_true, if_false]
    exact glare_parseMulti plain2 _ pAt s []
  | true =>
    simp only [if_true]
    by_cases hp : pAt < plain2.length
    · rw [if_pos hp]
      exact glare_parsePacket s _
    · rw [if_neg hp]
      exact ⟨rfl, rfl⟩

theorem glare_parseFinal (s : Puffer) (bundleID : Nat) :
    (parseFinal s bundleID).glarePosition = s.glarePosition ∧
    (parseFinal s bundleID).glareInited = s.glareInited := by
  unfold parseFinal
  by_cases hw : s.isWindowed = true
  · rw [if_pos hw]
    exact glare_pretendReceived s bundleID
  · rw [if_neg hw]
    exact ⟨rfl, rfl⟩

/-- The receiver-side glare lock (Puffer.hpp lines 544-548): an un-inited
receiver locks to the OPPOSITE of the incoming glare bit, and the rest of
the parse does not touch the lock. -/
theorem parseBody_locks (s : Puffer) (plainPayload : List Nat) (bundleID : Nat)
    (hinit : s.glareInited = false) :
    (parseBody s plainPayload bundleID).1.glareInited = true ∧
    (parseBody s plainPayload bundleID).1.glarePosition
      = !((plainPayload.headD 0 >>> 4) &&& 1 == 1) := by
  unfold parseBody
  rw [hinit]
  simp only [Bool.false_eq_true, if_false]
  try dsimp only
  exact ⟨((glare_parseFinal _ _).2).trans ((glare_parseDispatchStage _ _ _ _).2),
    ((glare_parseFinal _ _).1).trans ((glare_parseDispatchStage _ _ _ _).1)⟩

/-- The glare drop (Puffer.hpp lines 549-553): a locked receiver returns
without parsing when the incoming glare bit equals its own position. -/
theorem parseBody_drop (s : Puffer) (plainPayload : List Nat) (bundleID : Nat)
    (hinit : s.glareInited = true)
    (heq : ((plainPayload.headD 0 >>> 4) &&& 1 == 1) = s.glarePosition) :
    parseBody s plainPayload bundleID = (s, []) := by
  unfold parseBody
  rw [hinit]
  dsimp only
  rw [if_pos rfl, if_pos (beq_iff_eq.mpr heq)]

/-- In plain non-windowed mode a non-empty bundle with a cleared secure bit
runs straight into `parseBody` with the implicit nonce. -/
theorem parse_plain_eq_body (s : Puffer) (bundle : List Nat)
    (hw : s.isWindowed = false) (hsec : s.isSecure = false)
    (hnb : bundle ≠ []) (hbit : bundle.getD 0 0 &&& 1 = 0) :
    parse s bundle = parseBody s bundle ((s.lastReceivedNonce + 1) % u64Mod) := by
  have hlen : 0 < bundle.length := List.length_pos.mpr hnb
  unfold parse
  rw [hw]
  dsimp only
  simp only [Bool.false_and, Bool.false_eq_true, if_false]
  rw [if_neg (by omega : ¬(0 ≥ bundle.length))]
  rw [hsec, hbit]
  rw [if_neg (by decide : ¬((false != (0 == 1)) = true))]
  rw [List.drop_zero]
  simp only [Bool.false_eq_true, if_false]
  try dsimp only
  rw [if_neg (by omega : ¬(bundle.length = 0))]

/-- The sender-side glare lock of `Puffer::build` (Puffer.hpp lines
601-603): building locks the bit too — at the CURRENT position, with no
flip. -/
theorem build_locks_glare (t : Puffer) (bBS bMS : Nat) :
    (build t bBS bMS).glareInited = true ∧
    (build t bBS bMS).glarePosition = t.glarePosition := by
  unfold build
  by_cases hg : t.glareInited = true
  · rw [if_pos hg]
    obtain ⟨hp, hi⟩ := glare_buildLoop bBS bMS (buildFuel t) t
    exact ⟨hi.trans hg, hp⟩
  · rw [if_neg hg]
    obtain ⟨hp, hi⟩ := glare_buildLoop bBS bMS (buildFuel { t with glareInited := true })
      { t with glareInited := true }
    exact ⟨hi, hp⟩

/-- A fresh `Puffer` with every default. -/
def c7Fresh : Puffer := {}

/-- A `Puffer` whose glare bit is already locked at the default position. -/
def c7Locked : Puffer := { glareInited := true }

def c7Pkt : Packet := { payload := [5, 6, 7] }

/-- **C7** (amended): a receiver whose glare bit is not yet locked locks it
to the opposite of the incoming bundle's glare-position bit; a locked
receiver drops — no parse, no dispatch, no state change — every bundle
whose glare-position bit equals its own; and `Puffer::build` (lines
601-603) ALSO locks the bit, at the local position with no flip, before
anything is received.  Hence two symmetric fresh initiators that each
flush before receiving both lock `glarePosition = false`, both send glare
bit 0, and each drops everything the other sends — neither side survives
the first crossing, not exactly one (see the counterexample). -/
theorem claim_C7_glare_discipline (s s2 t : Puffer) (bundle bundle2 : List Nat) (bBS bMS : Nat)
    (hw : s.isWindowed = false) (hsec : s.isSecure = false) (hinit : s.glareInited = false)
    (hnb : bundle ≠ []) (hbit : bundle.getD 0 0 &&& 1 = 0)
    (hw2 : s2.isWindowed = false) (hsec2 : s2.isSecure = false) (hinit2 : s2.glareInited = true)
    (hnb2 : bundle2 ≠ []) (hbit2 : bundle2.getD 0 0 &&& 1 = 0)
    (heq : ((bundle2.headD 0 >>> 4) &&& 1 == 1) = s2.glarePosition) :
    ((parse s bundle).1.glareInited = true ∧
     (parse s bundle).1.glarePosition = !((bundle.headD 0 >>> 4) &&& 1 == 1)) ∧
    parse s2 bundle2 = (s2, []) ∧
    ((build t bBS bMS).glareInited = true ∧
     (build t bBS bMS).glarePosition = t.glarePosition) := by
  refine ⟨?_, ?_, build_locks_glare t bBS bMS⟩
  · rw [parse_plain_eq_body s bundle hw hsec hnb hbit]
    exact parseBody_locks s bundle ((s.lastReceivedNonce + 1) % u64Mod) hinit
  · rw [parse_plain_eq_body s2 bundle2 hw2 hsec2 hnb2 hbit2]
    exact parseBody_drop s2 bundle2 _ hinit2 heq

/-- C7 witness: the lock, the drop and the sender-side lock at concrete
states and bundles. -/
theorem claim_C7_glare_discipline_witness :
    ((parse c7Fresh [16]).1.glareInited = true ∧
     (parse c7Fresh [16]).1.glarePosition = !((([16] : List Nat).headD 0 >>> 4) &&& 1 == 1)) ∧
    parse c7Locked [8] = (c7Locked, []) ∧
    ((build c7Fresh 32 1400).glareInited = true ∧
     (build c7Fresh 32 1400).glarePosition = c7Fresh.glarePosition) :=
  claim_C7_glare_discipline c7Fresh c7Locked c7Fresh [16] [8] 32 1400
    (by decide) (by decide) (by decide) (by decide) (by decide)
    (by decide) (by decide) (by decide) (by decide) (by decide) (by decide)

/-- C7 counterexample to "exactly one side of a symmetric pair survives":
two symmetric fresh peers each push one packet and flush before receiving;
their states and bundles are identical by symmetry, the bundle is real,
and the cross-parse drops it on BOTH sides — no events, state unchanged. -/
theorem claim_C7_counterexample :
    (flush (push c7Fresh c7Pkt) false 32 1400).2 ≠ [] ∧
    parse (flush (push c7Fresh c7Pkt) false 32 1400).1
        (flush (push c7Fresh c7Pkt) false 32 1400).2
      = ((flush (push c7Fresh c7Pkt) false 32 1400).1, []) := by
  decide

/-! ## Claim C2 — the secure wire layout -/

theorem land_254_even (x : Nat) : (x &&& 254) % 2 = 0 := by
  have h0 : (x &&& 254).testBit 0 = false := by
    rw [Nat.testBit_land, (by decide : (254 : Nat).testBit 0 = false), Bool.and_false]
  rcases Nat.mod_two_eq_zero_or_one (x &&& 254) with h | h
  · exact h
  · rw [Nat.testBit_zero, h] at h0
    simp at h0

/-- Forcing the LSB on byte 0 (`ct[0] = (ct[0] & 0xFE) | 1`) leaves an odd
first byte. -/
theorem setLSB1_headD_odd (l : List Nat) (hl : l ≠ []) :
    ((l.set 0 (l.getD 0 0 &&& 0xFE ||| 1)).headD 0) % 2 = 1 := by
  cases l with
  | nil => exact absurd rfl hl
  | cons x xs => exact lor_one_mod_two _

/-- Clearing the LSB on byte 0 (`content[0] &= 0xFE`) leaves an even first
byte. -/
theorem setLSB0_headD_even (l : List Nat) (hl : l ≠ []) :
    ((l.set 0 (l.getD 0 0 &&& 0xFE)).headD 0) % 2 = 0 := by
  cases l with
  | nil => exact absurd rfl hl
  | cons x xs => exact land_254_even x

/-- `Puffer::build`, secure windowed single-packet bundle (Puffer.hpp lines
720-743): `VarLong(nonce) ∥ forced-LSB-1 ciphertext ∥ tag(8)`. -/
theorem c2_puffer_secure (s : Puffer) (p : Packet) (bBS bMS : Nat)
    (hsec : s.isSecure = true) (hwin : s.isWindowed = true)
    (hkey : s.key.length = 32) (houtbox : s.outbox = [p])
    (himp : p.important = true)
    (hov : bMS > 1 + 9 + 8 + bBS)
    (hfit : (serializePacket p).length ≤ bMS - (1 + 9 + 8 + bBS)) :
    ∃ content ct tag,
      content ≠ [] ∧
      aeadSealF s.key ((s.lastSentNonce + 1) % u64Mod) content
        (varLongBytes ((s.lastSentNonce + 1) % u64Mod)) 8 = some (ct, tag) ∧
      (buildStep s bBS bMS).inflightBundles
        = s.inflightBundles
          ++ [⟨(s.lastSentNonce + 1) % u64Mod,
               varLongBytes ((s.lastSentNonce + 1) % u64Mod)
                 ++ ct.set 0 (ct.getD 0 0 &&& 0xFE ||| 1) ++ tag, true⟩] ∧
      ((ct.set 0 (ct.getD 0 0 &&& 0xFE ||| 1)).headD 0) % 2 = 1 := by
  unfold buildStep
  rw [houtbox]
  dsimp only
  rw [if_pos hov]
  rw [if_neg (by omega : ¬((serializePacket p).length > bMS - (1 + 9 + 8 + bBS)))]
  have hcond : ([p] : List Packet).length = 1 ∧
      (serializePacket p).length ≤ bMS - (1 + 9 + 8 + bBS) := ⟨rfl, hfit⟩
  rw [if_pos hcond]
  dsimp only
  rw [if_pos hsec, if_pos hwin, if_pos himp]
  have hseal : ∀ C : List Nat, aeadSealF s.key ((s.lastSentNonce + 1) % u64Mod) C
      (varLongBytes ((s.lastSentNonce + 1) % u64Mod)) 8
      = some (streamXor s.key ((s.lastSentNonce + 1) % u64Mod) C 1,
          (poly1305 (aeadAuthData (varLongBytes ((s.lastSentNonce + 1) % u64Mod))
              (streamXor s.key ((s.lastSentNonce + 1) % u64Mod) C 1))
            (createPoly1305Key s.key ((s.lastSentNonce + 1) % u64Mod))).take 8) := by
    intro C
    unfold aeadSealF
    rw [if_neg (by omega)]
  rw [hseal]
  dsimp only
  rw [himp]
  refine ⟨_, _, _, ?_, hseal _, rfl, ?_⟩
  · apply List.ne_nil_of_length_pos
    rw [List.length_set]
    split <;> simp
  · apply setLSB1_headD_odd
    apply List.ne_nil_of_length_pos
    rw [streamXor_length _ _ _ _ hkey, List.length_set]
    split <;> simp

/-- `Puffer::build`, plain windowed single-packet bundle (Puffer.hpp line
755): `VarLong(nonce) ∥ content`, the LSB of content byte 0 forced to 0. -/
theorem c2_puffer_plain (s : Puffer) (p : Packet) (bBS bMS : Nat)
    (hsec : s.isSecure = false) (hwin : s.isWindowed = true)
    (houtbox : s.outbox = [p]) (himp : p.important = true)
    (hov : bMS > 1 + 9 + 8 + bBS)
    (hfit : (serializePacket p).length ≤ bMS - (1 + 9 + 8 + bBS)) :
    ∃ content,
      content ≠ [] ∧
      (buildStep s bBS bMS).inflightBundles
        = s.inflightBundles
          ++ [⟨(s.lastSentNonce + 1) % u64Mod,
               varLongBytes ((s.lastSentNonce + 1) % u64Mod)
                 ++ content.set 0 (content.getD 0 0 &&& 0xFE), true⟩] ∧
      ((content.set 0 (content.getD 0 0 &&& 0xFE)).headD 0) % 2 = 0 := by
  unfold buildStep
  rw [houtbox]
  dsimp only
  rw [if_pos hov]
  rw [if_neg (by omega : ¬((serializePacket p).length > bMS - (1 + 9 + 8 + bBS)))]
  have hcond : ([p] : List Packet).length = 1 ∧
      (serializePacket p).length ≤ bMS - (1 + 9 + 8 + bBS) := ⟨rfl, hfit⟩
  rw [if_pos hcond]
  dsimp only
  rw [if_neg (by simp [hsec] : ¬(s.isSecure = true)), if_pos hwin, if_pos himp]
  dsimp only
  rw [himp]
  refine ⟨_, ?_, rfl, ?_⟩
  · apply List.ne_nil_of_length_pos
    rw [List.length_set]
    split <;> simp
  · apply setLSB0_headD_even
    apply List.ne_nil_of_length_pos
    rw [List.length_set]
    split <;> simp

/-- `Tunnel::build`, secure windowed single-packet bundle (Tunnel.hpp lines
486-504): `VarLong(nonce) ∥ tag(8) ∥ ciphertext` — the tag comes FIRST and
the ciphertext is appended unmodified (no LSB forcing). -/
theorem c2_tunnel_secure (t : Tunnel) (q : Packet) (bBS bMS : Nat)
    (htsec : t.isSecure = true) (htwin : t.isWindowed = true)
    (htkey : t.key.length = 32) (htout : t.outbox = [q]) (himpq : q.important = true)
    (hov : bMS > 1 + 9 + 8 + bBS)
    (hfit : (tunnelSerializePacket t.isWindowed q).length ≤ bMS - (1 + 9 + 8 + bBS)) :
    ∃ content ct tag,
      content ≠ [] ∧
      aeadSealF t.key ((t.lastSentNonce + 1) % u64Mod) content
        (varLongBytes ((t.lastSentNonce + 1) % u64Mod)) 8 = some (ct, tag) ∧
      (tunnelBuildStep t bBS bMS).inflightBundles
        = t.inflightBundles
          ++ [⟨(t.lastSentNonce + 1) % u64Mod,
               varLongBytes ((t.lastSentNonce + 1) % u64Mod) ++ tag ++ ct, true⟩] := by
  unfold tunnelBuildStep
  rw [htout]
  dsimp only
  rw [if_pos htwin]
  rw [if_pos hov]
  rw [if_neg (fun h => absurd h.2 (by omega))]
  have hcond : ([q] : List Packet).length = 1 ∨ t.isWindowed = false := Or.inl rfl
  rw [if_pos hcond]
  dsimp only
  rw [if_pos htwin, if_pos htwin]
  dsimp only
  rw [if_pos htsec, if_pos htwin, if_pos htwin]
  have hseal : ∀ C : List Nat, aeadSealF t.key ((t.lastSentNonce + 1) % u64Mod) C
      (varLongBytes ((t.lastSentNonce + 1) % u64Mod)) 8
      = some (streamXor t.key ((t.lastSentNonce + 1) % u64Mod) C 1,
          (poly1305 (aeadAuthData (varLongBytes ((t.lastSentNonce + 1) % u64Mod))
              (streamXor t.key ((t.lastSentNonce + 1) % u64Mod) C 1))
            (createPoly1305Key t.key ((t.lastSentNonce + 1) % u64Mod))).take 8) := by
    intro C
    unfold aeadSealF
    rw [if_neg (by omega)]
  rw [hseal]
  dsimp only
  rw [if_pos himpq]
  dsimp only
  rw [himpq]
  refine ⟨_, _, _, ?_, hseal _, rfl⟩
  · apply List.ne_nil_of_length_pos
    rw [List.length_set]
    split <;> simp

def c2Key : List Nat := List.replicate 32 7

def c2Pkt : Packet := { payload := [10, 20, 30] }

/-- A secure windowed `Puffer` holding one queued packet. -/
def c2S : Puffer := { key := c2Key, isSecure := true, isWindowed := true, outbox := [c2Pkt] }

/-- A plain windowed `Puffer` holding one queued packet. -/
def c2S2 : Puffer := { isWindowed := true, outbox := [c2Pkt] }

/-- A secure windowed `Tunnel` holding one queued packet. -/
def c2T : Tunnel := { key := c2Key, isSecure := true, isWindowed := true, outbox := [c2Pkt] }

/-- The exact plaintext `Tunnel::build` seals for `c2T` at
`bBS = 32, bMS = 1400`: header 13, length VarLong 5, serialized packet,
zero padding to 32 bytes. -/
def c2Content : List Nat := [13, 5, 0, 0, 10, 20, 30] ++ List.replicate 25 0

/-- **C2** (amended): in the `Puffer` revision the claim holds — a secure
windowed bundle is `VarLong(nonce) ∥ ciphertext ∥ tag(8)` with the LSB of
ciphertext byte 0 forced to 1, and a plain bundle carries content whose
byte 0 has its LSB forced to 0.  The `Tunnel` revision of the same engine
diverges: its secure bundle is `VarLong(nonce) ∥ tag(8) ∥ ciphertext`, tag
first, with no LSB forcing at all. -/
theorem claim_C2_wire_layout (s s2 : Puffer) (t : Tunnel) (p p2 q : Packet) (bBS bMS : Nat)
    (hsec : s.isSecure = true) (hwin : s.isWindowed = true)
    (hkey : s.key.length = 32) (houtbox : s.outbox = [p]) (himp : p.important = true)
    (hsec2 : s2.isSecure = false) (hwin2 : s2.isWindowed = true)
    (houtbox2 : s2.outbox = [p2]) (himp2 : p2.important = true)
    (htsec : t.isSecure = true) (htwin : t.isWindowed = true)
    (htkey : t.key.length = 32) (htout : t.outbox = [q]) (himpq : q.important = true)
    (hov : bMS > 1 + 9 + 8 + bBS)
    (hfit : (serializePacket p).length ≤ bMS - (1 + 9 + 8 + bBS))
    (hfit2 : (serializePacket p2).length ≤ bMS - (1 + 9 + 8 + bBS))
    (hfitq : (tunnelSerializePacket t.isWindowed q).length ≤ bMS - (1 + 9 + 8 + bBS)) :
    (∃ content ct tag,
      content ≠ [] ∧
      aeadSealF s.key ((s.lastSentNonce + 1) % u64Mod) content
        (varLongBytes ((s.lastSentNonce + 1) % u64Mod)) 8 = some (ct, tag) ∧
      (buildStep s bBS bMS).inflightBundles
        = s.inflightBundles
          ++ [⟨(s.lastSentNonce + 1) % u64Mod,
               varLongBytes ((s.lastSentNonce + 1) % u64Mod)
                 ++ ct.set 0 (ct.getD 0 0 &&& 0xFE ||| 1) ++ tag, true⟩] ∧
      ((ct.set 0 (ct.getD 0 0 &&& 0xFE ||| 1)).headD 0) % 2 = 1) ∧
    (∃ content,
      content ≠ [] ∧
      (buildStep s2 bBS bMS).inflightBundles
        = s2.inflightBundles
          ++ [⟨(s2.lastSentNonce + 1) % u64Mod,
               varLongBytes ((s2.lastSentNonce + 1) % u64Mod)
                 ++ content.set 0 (content.getD 0 0 &&& 0xFE), true⟩] ∧
      ((content.set 0 (content.getD 0 0 &&& 0xFE)).headD 0) % 2 = 0) ∧
    (∃ content ct tag,
      content ≠ [] ∧
      aeadSealF t.key ((t.lastSentNonce + 1) % u64Mod) content
        (varLongBytes ((t.lastSentNonce + 1) % u64Mod)) 8 = some (ct, tag) ∧
      (tunnelBuildStep t bBS bMS).inflightBundles
        = t.inflightBundles
          ++ [⟨(t.lastSentNonce + 1) % u64Mod,
               varLongBytes ((t.lastSentNonce + 1) % u64Mod) ++ tag ++ ct, true⟩]) :=
  ⟨c2_puffer_secure s p bBS bMS hsec hwin hkey houtbox himp hov hfit,
   c2_puffer_plain s2 p2 bBS bMS hsec2 hwin2 houtbox2 himp2 hov hfit2,
   c2_tunnel_secure t q bBS bMS htsec htwin htkey htout himpq hov hfitq⟩

/-- C2 witness: the three layouts at concrete states, key `32 × 0x07`,
payload `[10, 20, 30]`, `bBS = 32`, `bMS = 1400`. -/
theorem claim_C2_wire_layout_witness :
    (∃ content ct tag,
      content ≠ [] ∧
      aeadSealF c2S.key ((c2S.lastSentNonce + 1) % u64Mod) content
        (varLongBytes ((c2S.lastSentNonce + 1) % u64Mod)) 8 = some (ct, tag) ∧
      (buildStep c2S 32 1400).inflightBundles
        = c2S.inflightBundles
          ++ [⟨(c2S.lastSentNonce + 1) % u64Mod,
               varLongBytes ((c2S.lastSentNonce + 1) % u64Mod)
                 ++ ct.set 0 (ct.getD 0 0 &&& 0xFE ||| 1) ++ tag, true⟩] ∧
      ((ct.set 0 (ct.getD 0 0 &&& 0xFE ||| 1)).headD 0) % 2 = 1) ∧
    (∃ content,
      content ≠ [] ∧
      (buildStep c2S2 32 1400).inflightBundles
        = c2S2.inflightBundles
          ++ [⟨(c2S2.lastSentNonce + 1) % u64Mod,
               varLongBytes ((c2S2.lastSentNonce + 1) % u64Mod)
                 ++ content.set 0 (content.getD 0 0 &&& 0xFE), true⟩] ∧
      ((content.set 0 (content.getD 0 0 &&& 0xFE)).headD 0) % 2 = 0) ∧
    (∃ content ct tag,
      content ≠ [] ∧
      aeadSealF c2T.key ((c2T.lastSentNonce + 1) % u64Mod) content
        (varLongBytes ((c2T.lastSentNonce + 1) % u64Mod)) 8 = some (ct, tag) ∧
      (tunnelBuildStep c2T 32 1400).inflightBundles
        = c2T.inflightBundles
          ++ [⟨(c2T.lastSentNonce + 1) % u64Mod,
               varLongBytes ((c2T.lastSentNonce + 1) % u64Mod) ++ tag ++ ct, true⟩]) :=
  claim_C2_wire_layout c2S c2S2 c2T c2Pkt c2Pkt c2Pkt 32 1400
    (by decide) (by decide) (by decide) (by decide) (by decide)
    (by decide) (by decide) (by decide) (by decide)
    (by decide) (by decide) (by decide) (by decide) (by decide)
    (by decide) (by decide) (by decide) (by decide)

/-- C2 counterexample to the claim as stated, on the `Tunnel` revision: the
bundle it emits is `VarLong(1) ∥ tag ∥ ciphertext` and differs from the
claimed `VarLong(1) ∥ forced-LSB-1 ciphertext ∥ tag`. -/
theorem claim_C2_counterexample :
    (tunnelBuildStep c2T 32 1400).inflightBundles.map (fun ib => ib.data)
      = [varLongBytes 1 ++ (aeadSealF c2Key 1 c2Content (varLongBytes 1) 8).get!.2
          ++ (aeadSealF c2Key 1 c2Content (varLongBytes 1) 8).get!.1] ∧
    varLongBytes 1 ++ (aeadSealF c2Key 1 c2Content (varLongBytes 1) 8).get!.2
        ++ (aeadSealF c2Key 1 c2Content (varLongBytes 1) 8).get!.1
      ≠ varLongBytes 1
          ++ ((aeadSealF c2Key 1 c2Content (varLongBytes 1) 8).get!.1).set 0
              (((aeadSealF c2Key 1 c2Content (varLongBytes 1) 8).get!.1).getD 0 0 &&& 0xFE ||| 1)
          ++ (aeadSealF c2Key 1 c2Content (varLongBytes 1) 8).get!.2 := by
  decide

end Rho
